import Mathlib

/-!
stTreeInformation (arboretum): the FatFactor / BloatFactor report.

Shallow embedding of `src/include/arboretum/stTreeInformation.cpp`.

Conventions of the embedding:

* a C++ `int` holds 32 bits: the result of an addition or a subtraction of
  ints is reduced to the range -2^31 .. 2^31 - 1 (`wrap32`), as the compiled
  code does when a signed operation overflows;
* a C++ `double` is the type `Double` below: an exact rational, or the marker
  `nonFinite` for the results of a division by zero (an infinity or a NaN).
  The arithmetic of Calculate on finite values is exact; the quotient of the two
  logarithms of `logxy`, whose ceiling becomes a height, is rounded to the
  nearest double as IEEE 754 prescribes; the quotients of two ints whose
  ceilings become node counts are exact, which gives the same ceilings;
* the function `log` of the C library is not part of the repository: it is a
  parameter of the embedding, and `libmLog` lists the doubles it returns at the
  arguments of the scenarios;
* an array is a `List`; reading or writing outside its bounds, and converting
  a non finite double to `int`, are undefined behaviour and make the embedded
  function return `none`.
-/

namespace Arboretum

/-! ## 32-bit integers -/

/-- The values of a 32-bit int. -/
def IsInt32 (x : Int) : Prop := -2147483648 ≤ x ∧ x < 2147483648

instance (x : Int) : Decidable (IsInt32 x) := by
  unfold IsInt32; infer_instance

/-- The 32-bit int that an int addition or subtraction stores when its exact
result is x: x reduced modulo 2^32 to the range -2^31 .. 2^31 - 1. -/
def wrap32 (x : Int) : Int := (x + 2147483648) % 4294967296 - 2147483648

/-! ## Doubles -/

/-- Value of a C++ double: an exact rational, or a non finite value
(an infinity or a NaN, which only a division by zero produces here). -/
inductive Double where
  | finite (q : ℚ)
  | nonFinite
  deriving DecidableEq

namespace Double

/-- Conversion double(i) of an int. -/
def ofInt (i : Int) : Double := finite (i : ℚ)

/-- Subtraction of doubles. -/
def sub : Double → Double → Double
  | finite a, finite b => finite (a - b)
  | _, _ => nonFinite

/-- Product of doubles. -/
def mul : Double → Double → Double
  | finite a, finite b => finite (a * b)
  | _, _ => nonFinite

/-- Quotient of doubles: dividing a finite value by zero gives an infinity or
a NaN. (A non finite divisor does not occur in this code: every divisor is a
converted integer.) -/
def div : Double → Double → Double
  | finite a, finite b => if b = 0 then nonFinite else finite (a / b)
  | _, _ => nonFinite

instance : Sub Double := ⟨sub⟩
instance : Mul Double := ⟨mul⟩
instance : Div Double := ⟨div⟩

/-- The integer nearest to m; a tie goes to the even one. -/
def rne (m : ℚ) : Int :=
  if m - ⌊m⌋ < 1 / 2 then ⌊m⌋
  else if 1 / 2 < m - ⌊m⌋ then ⌊m⌋ + 1
  else if ⌊m⌋ % 2 = 0 then ⌊m⌋ else ⌊m⌋ + 1

/-- The double nearest to a positive rational x: x is between 2^e and 2^(e+1)
for e = Int.log 2 x, the doubles there are the multiples of 2^(e-52), and x is
rounded to the nearest one, ties to even. (The exponent range of the format is
not modelled: the quotients of logarithms rounded here are far inside it.) -/
def roundPos (x : ℚ) : ℚ :=
  (rne (x / 2 ^ (Int.log 2 x - 52)) : ℚ) * 2 ^ (Int.log 2 x - 52)

/-- Rounding of a rational to the nearest double, ties to even. -/
def roundNearestEven (x : ℚ) : ℚ :=
  if x = 0 then 0 else if 0 < x then roundPos x else -roundPos (-x)

/-- Quotient of doubles as the division instruction computes it: the exact
quotient rounded to the nearest double. Dividing by zero gives an infinity or
a NaN. (A finite value divided by an infinity is a zero; the marker does not
tell an infinity from a NaN and the result is left non finite. It occurs in
logxy for an occupation whose logarithm is not finite, where the code gets a
height of 0 or an undefined conversion: the call does not complete either
way.) -/
def divIEEE : Double → Double → Double
  | finite a, finite b => if b = 0 then nonFinite else finite (roundNearestEven (a / b))
  | _, _ => nonFinite

/-- The conversion int(ceil(x)): undefined for a non finite x. (The range of
int is not checked: the values converted in this code are ceilings of an int
divided by the occupation and of a quotient of two logarithms.) -/
def ceilToInt : Double → Option Int
  | finite q => some ⌈q⌉
  | nonFinite => none

/-- Whether the value is finite. -/
def isFinite : Double → Bool
  | finite _ => true
  | nonFinite => false

end Double

/-! ## Data model -/

/-- Modelled from the spec: the record stLevelInfo is declared in
stTreeInformation.h, which is not part of the sources; its fields are the ones
the code reads and writes (NodeCount, ObjectCount, Intersections as int,
FatFactor as double). The three counts are 32-bit ints. -/
structure stLevelInfo where
  NodeCount : Int
  ObjectCount : Int
  Intersections : Int
  FatFactor : Double
  inRange : IsInt32 NodeCount ∧ IsInt32 ObjectCount ∧ IsInt32 Intersections := by decide
  deriving DecidableEq

/-- Modelled from the spec: the record stOptimalLevelInfo is declared in
stTreeInformation.h; its fields are NodeCount and ObjectCount. -/
structure stOptimalLevelInfo where
  NodeCount : Int
  ObjectCount : Int
  deriving DecidableEq

/-- Modelled from the spec: the members of stTreeInformation and of its base
class stTreeInfoResult are declared in stTreeInformation.h; they are the ones
the code uses. The pointer optimalLevelData is `none` when NULL. -/
structure stTreeInformation where
  height : Int
  minHeight : Int
  objectCount : Int
  objectSizeSum : Int
  objectSizeCount : Int
  fatFactor : Double
  bloatFactor : Double
  optimalHeight : Int
  ready : Bool
  levelData : List stLevelInfo
  optimalLevelData : Option (List stOptimalLevelInfo)
  deriving DecidableEq

/-- The array levelData holds exactly `height` entries (it is allocated once,
by the constructor, with that size). -/
def LevelsSized (r : stTreeInformation) : Prop :=
  (r.levelData.length : Int) = r.height

/-- When an optimal array is present it holds exactly `optimalHeight` entries
(both are always set together). -/
def OptimalSized (r : stTreeInformation) : Prop :=
  ∀ O, r.optimalLevelData = some O → (O.length : Int) = r.optimalHeight

instance (r : stTreeInformation) : Decidable (LevelsSized r) := by
  unfold LevelsSized; infer_instance

/-- Modelled from the spec: Invalidate is defined in stTreeInformation.h; it
marks the report not-ready. -/
def Invalidate (r : stTreeInformation) : stTreeInformation :=
  { r with ready := false }

/-- Write of an array entry at an int index; out of bounds is undefined. -/
def writeAt {α : Type} (l : List α) (i : Int) (v : α) : Option (List α) :=
  if 0 ≤ i ∧ i < l.length then some (l.set i.toNat v) else none

/-- Read of an array entry at an int index; out of bounds is undefined. -/
def readAt {α : Type} (l : List α) (i : Int) : Option α :=
  if 0 ≤ i then l[i.toNat]? else none

/-! ## ResetData and the constructor -/

/-- The all-zero level record left by memset. -/
def zeroLevel : stLevelInfo :=
  { NodeCount := 0, ObjectCount := 0, Intersections := 0, FatFactor := Double.finite 0 }

/-- ResetData: memset of `height` level records to zero, then the object-size
accumulators are zeroed. The memset is within bounds when the array has at
least `height` entries and `height` is not negative. -/
def ResetData (r : stTreeInformation) : Option stTreeInformation :=
  if 0 ≤ r.height ∧ r.height.toNat ≤ r.levelData.length then
    some { r with
      levelData := List.replicate r.height.toNat zeroLevel ++ r.levelData.drop r.height.toNat
      objectSizeSum := 0
      objectSizeCount := 0 }
  else none

/-- The constructor stTreeInformation(height, objectCount). The argument
`base` is the object as the base-class constructor stTreeInfoResult() (in the
header) leaves it; `junk` is the content of the freshly allocated array.
A negative array size makes `new` fail. -/
def construct (base : stTreeInformation) (junk : stLevelInfo)
    (height objectCount : Int) : Option stTreeInformation :=
  if height < 0 then none else
    let r0 := { base with
      height := height
      minHeight := height
      levelData := List.replicate height.toNat junk
      optimalLevelData := none }
    (ResetData r0).map fun r1 => { Invalidate r1 with objectCount := objectCount }

/-! ## Calculate -/

/-- First loop of Calculate: the totals numIntersections and numNodes. -/
def sumTotals (height : Int) (levelData : List stLevelInfo) : Option (Int × Int) :=
  (List.range height.toNat).foldlM
    (fun (acc : Int × Int) i =>
      (levelData[i]?).map fun l =>
        (wrap32 (acc.1 + l.Intersections), wrap32 (acc.2 + l.NodeCount)))
    (0, 0)

/-- The value stored in the FatFactor of one level. -/
def localFatFactor (l : stLevelInfo) : Double :=
  Double.ofInt (wrap32 (l.ObjectCount - l.Intersections)) /
    Double.ofInt l.ObjectCount /
    Double.ofInt l.NodeCount

/-- Second loop of Calculate: the local FatFactor of every level. -/
def setLocalFatFactors (height : Int) (levelData : List stLevelInfo) :
    Option (List stLevelInfo) :=
  (List.range height.toNat).foldlM
    (fun (ld : List stLevelInfo) i =>
      (ld[i]?).map fun l => ld.set i { l with FatFactor := localFatFactor l })
    levelData

/-- Loop of the BloatFactor branch: the total optNumNodes. -/
def sumOptimalNodes (optimalHeight : Int) (O : List stOptimalLevelInfo) : Option Int :=
  (List.range optimalHeight.toNat).foldlM
    (fun (acc : Int) i => (O[i]?).map fun o => wrap32 (acc + o.NodeCount))
    0

/-- The global FatFactor expression. -/
def fatFactorExpr (numIntersections height objectCount numNodes : Int) : Double :=
  (Double.ofInt numIntersections -
      Double.ofInt (wrap32 (height + 1)) * Double.ofInt objectCount) /
    (Double.ofInt objectCount * Double.ofInt (wrap32 (wrap32 (numNodes - height) - 1)))

/-- The BloatFactor expression. -/
def bloatFactorExpr (numIntersections optimalHeight objectCount optNumNodes : Int) : Double :=
  (Double.ofInt numIntersections -
      Double.ofInt (wrap32 (optimalHeight + 1)) * Double.ofInt objectCount) /
    (Double.ofInt objectCount * Double.ofInt optNumNodes -
      Double.ofInt (wrap32 (optimalHeight + 1)))

/-- The method Calculate. -/
def Calculate (r : stTreeInformation) : Option stTreeInformation := do
  let (numIntersections, numNodes) ← sumTotals r.height r.levelData
  let levelData ← setLocalFatFactors r.height r.levelData
  let fatFactor := fatFactorExpr numIntersections r.height r.objectCount numNodes
  let bloatFactor ←
    match r.optimalLevelData with
    | some O =>
      (sumOptimalNodes r.optimalHeight O).map fun optNumNodes =>
        bloatFactorExpr numIntersections r.optimalHeight r.objectCount optNumNodes
    | none => some r.bloatFactor
  pure { r with
    levelData := levelData
    fatFactor := fatFactor
    bloatFactor := bloatFactor
    ready := true }

/-! ## The optimal baseline -/

/-- SetOptimalTreeInfo(height, objectCount, nodeCount): the two arguments are
the arrays behind the pointers; `junk` is the content of the freshly allocated
array. A negative array size makes `new` fail. -/
def SetOptimalTreeInfo (junk : stOptimalLevelInfo) (height : Int)
    (objectCount nodeCount : List Int) (r : stTreeInformation) :
    Option stTreeInformation :=
  if height < 0 then none else
    ((List.range height.toNat).foldlM
      (fun (O : List stOptimalLevelInfo) (i : Nat) =>
        (nodeCount[i]?).bind fun nc =>
        (objectCount[i]?).bind fun oc =>
        writeAt O (i : Int) ⟨nc, oc⟩)
      (List.replicate height.toNat junk)).map fun O =>
    Invalidate { r with optimalHeight := height, optimalLevelData := some O }

/-- The definition logxy(x, y) = (log((double)x) / log((double)y)). The argument
`log` is the function log of the C library on the converted ints (the
conversion of an int to double is exact); the quotient is an IEEE division. -/
def logxy (log : Int → Double) (x y : Int) : Double :=
  Double.divIEEE (log x) (log y)

/-- The value int(ceil(logxy(x, y))). -/
def ceilLogxy (log : Int → Double) (x y : Int) : Option Int :=
  (logxy log x y).ceilToInt

/-- The value int(ceil(double(a) / double(b))). The ceiling is taken of the
exact quotient: the rounding of the quotient of two positive 32-bit ints never
crosses an integer (theorem ceilDiv_rounded). -/
def ceilDiv (a b : Int) : Option Int :=
  (Double.ofInt a / Double.ofInt b).ceilToInt

/-- The loop "Other levels" of CalculateOptimalTreeInfo, for the counter
running from its first argument down to 1. -/
def otherLevels (occupation : Int) :
    Nat → List stOptimalLevelInfo → Option (List stOptimalLevelInfo)
  | 0, O => some O
  | i + 1, O =>
    (O[i + 1]?).bind fun cur =>
    (ceilDiv cur.NodeCount occupation).bind fun nc =>
    (writeAt O (i : Int) ⟨nc, cur.NodeCount⟩).bind fun O1 =>
    otherLevels occupation i O1

/-- CalculateOptimalTreeInfo(occupation); `log` is the function log of the C
library and `junk` is the content of the freshly allocated array. -/
def CalculateOptimalTreeInfo (log : Int → Double) (junk : stOptimalLevelInfo)
    (occupation : Int) (r : stTreeInformation) : Option stTreeInformation :=
  (ceilLogxy log r.objectCount occupation).bind fun optimalHeight =>
  if optimalHeight < 0 then none else
    (ceilDiv r.objectCount occupation).bind fun nc =>
    (writeAt (List.replicate optimalHeight.toNat junk) (optimalHeight - 1)
      ⟨nc, r.objectCount⟩).bind fun O1 =>
    (otherLevels occupation (optimalHeight - 1).toNat O1).map fun O2 =>
    Invalidate { r with optimalHeight := optimalHeight, optimalLevelData := some O2 }

/-! ## Clone -/

/-- Clone: a new report is constructed, the scalars are copied and the arrays
are copied with memcpy (`height` level records, and `optimalHeight` optimal
records when the optimal array is present). Returns the clone. -/
def Clone (base : stTreeInformation) (junk : stLevelInfo) (r : stTreeInformation) :
    Option stTreeInformation :=
  (construct base junk r.height r.objectCount).bind fun c =>
  if r.levelData.length < r.height.toNat then none else
    let c1 := { c with
      minHeight := r.minHeight
      fatFactor := r.fatFactor
      bloatFactor := r.bloatFactor
      objectSizeSum := r.objectSizeSum
      objectSizeCount := r.objectSizeCount
      optimalHeight := r.optimalHeight
      ready := r.ready
      levelData := r.levelData.take r.height.toNat ++ c.levelData.drop r.height.toNat }
    match r.optimalLevelData with
    | none => some c1
    | some O =>
      if r.optimalHeight < 0 ∨ O.length < r.optimalHeight.toNat then none
      else some { c1 with optimalLevelData := some (O.take r.optimalHeight.toNat) }

/-! ## Sequences of operations -/

/-- The operations on a report after its construction. The operation
`writeLevel` is the external traversal storing the counts of one level (three
ints: other arguments do not occur). -/
inductive Op where
  | resetData
  | calculate
  | invalidate
  | setOptimalTreeInfo (junk : stOptimalLevelInfo) (height : Int)
      (objectCount nodeCount : List Int)
  | calculateOptimalTreeInfo (log : Int → Double) (junk : stOptimalLevelInfo)
      (occupation : Int)
  | clone (base : stTreeInformation) (junk : stLevelInfo)
  | writeLevel (i : Int) (nodeCount objectCount intersections : Int)

/-- One operation applied to a report (for `clone`, the report followed is
the clone). -/
def Op.apply (r : stTreeInformation) : Op → Option stTreeInformation
  | .resetData => ResetData r
  | .calculate => Calculate r
  | .invalidate => some (Invalidate r)
  | .setOptimalTreeInfo junk h oc nc => SetOptimalTreeInfo junk h oc nc r
  | .calculateOptimalTreeInfo log junk k => CalculateOptimalTreeInfo log junk k r
  | .clone base junk => Clone base junk r
  | .writeLevel i nc oc x =>
    if h : IsInt32 nc ∧ IsInt32 oc ∧ IsInt32 x then
      (readAt r.levelData i).bind fun l =>
      (writeAt r.levelData i
        { l with NodeCount := nc, ObjectCount := oc, Intersections := x,
                 inRange := h }).map fun ld =>
      { r with levelData := ld }
    else none

/-- A sequence of operations, applied from left to right. -/
def runOps (r : stTreeInformation) : List Op → Option stTreeInformation
  | [] => some r
  | op :: ops => (op.apply r).bind fun r1 => runOps r1 ops

/-- Operations that invalidate the report. -/
def Op.invalidates : Op → Bool
  | .invalidate => true
  | .setOptimalTreeInfo _ _ _ _ => true
  | .calculateOptimalTreeInfo _ _ _ => true
  | _ => false

/-! ## Scenarios -/

/-- A report of height 3 with 100 objects and levels (1,100,0), (5,100,10),
(20,100,30), as left by a traversal. -/
def scenarioA : stTreeInformation :=
  { height := 3, minHeight := 3, objectCount := 100
    objectSizeSum := 0, objectSizeCount := 0
    fatFactor := Double.finite 0, bloatFactor := Double.finite 0
    optimalHeight := 0, ready := false
    levelData :=
      [{ NodeCount := 1, ObjectCount := 100, Intersections := 0, FatFactor := Double.finite 0 },
       { NodeCount := 5, ObjectCount := 100, Intersections := 10, FatFactor := Double.finite 0 },
       { NodeCount := 20, ObjectCount := 100, Intersections := 30, FatFactor := Double.finite 0 }]
    optimalLevelData := none }

/-- The report of scenario A with the optimal baseline of a tree of 100
objects at occupation 10: OptimalHeight 2, levels (1,10) and (10,100). -/
def scenarioB : stTreeInformation :=
  { scenarioA with
    optimalHeight := 2
    optimalLevelData := some [⟨1, 10⟩, ⟨10, 100⟩] }

/-! ## Quantities the statements speak about -/

/-- A report whose arrays have the sizes recorded next to them. -/
def WellFormed (r : stTreeInformation) : Prop :=
  LevelsSized r ∧ OptimalSized r

/-- Sum of the Intersections of the levels. -/
def totalIntersections (r : stTreeInformation) : Int :=
  (r.levelData.map (·.Intersections)).sum

/-- Sum of the NodeCount of the levels. -/
def totalNodes (r : stTreeInformation) : Int :=
  (r.levelData.map (·.NodeCount)).sum

/-- Sum of the NodeCount of the optimal levels. -/
def optimalTotalNodes (O : List stOptimalLevelInfo) : Int :=
  (O.map (·.NodeCount)).sum

/-- The value of the variable numIntersections of Calculate after its first
loop: the sum of the Intersections, as a 32-bit int. -/
def numIntersections (r : stTreeInformation) : Int := wrap32 (totalIntersections r)

/-- The value of the variable numNodes of Calculate after its first loop: the
sum of the NodeCount, as a 32-bit int. -/
def numNodes (r : stTreeInformation) : Int := wrap32 (totalNodes r)

/-- The value of the variable optNumNodes of Calculate after its loop: the sum
of the NodeCount of the optimal levels, as a 32-bit int. -/
def optNumNodes (O : List stOptimalLevelInfo) : Int := wrap32 (optimalTotalNodes O)

/-- No int operation of the FatFactor computation leaves the range of a 32-bit
int: the two totals, Height + 1, totalNodes - Height and
totalNodes - Height - 1 are 32-bit ints. -/
def FatFactorInRange (r : stTreeInformation) : Prop :=
  IsInt32 (totalIntersections r) ∧ IsInt32 (totalNodes r) ∧ IsInt32 (r.height + 1) ∧
  IsInt32 (totalNodes r - r.height) ∧ IsInt32 (totalNodes r - r.height - 1)

/-- No int operation of the BloatFactor computation leaves the range of a
32-bit int: the total of the intersections, the total of the optimal node
counts and OptimalHeight + 1 are 32-bit ints. -/
def BloatFactorInRange (r : stTreeInformation) (O : List stOptimalLevelInfo) : Prop :=
  IsInt32 (totalIntersections r) ∧ IsInt32 (optimalTotalNodes O) ∧
  IsInt32 (r.optimalHeight + 1)

/-- The level record after Calculate: only its FatFactor is rewritten. -/
def withLocalFatFactor (l : stLevelInfo) : stLevelInfo :=
  { l with FatFactor := localFatFactor l }

/-- The BloatFactor after Calculate: recomputed when an optimal array is
present, untouched otherwise. -/
def bloatFactorAfter (r : stTreeInformation) : Double :=
  match r.optimalLevelData with
  | some O =>
    bloatFactorExpr (numIntersections r) r.optimalHeight r.objectCount (optNumNodes O)
  | none => r.bloatFactor

/-- The ceiling of x / k: the node count of the level above a level of x
nodes. -/
def ceilStep (k x : Int) : Int := ⌈(x : ℚ) / (k : ℚ)⌉

/-- The optimal levels from the root down, for a tree of the given height whose
deepest level stores n entries: the deepest level is (ceilStep k n, n) and
each level above a level (c, _) is (ceilStep k c, c). -/
def optimalChain (k : Int) : Nat → Int → List stOptimalLevelInfo
  | 0, _ => []
  | h + 1, n => optimalChain k h (ceilStep k n) ++ [⟨ceilStep k n, n⟩]

/-- The documented caller guarantees of Calculate: ObjectCount > 0, every
level has NodeCount > 0 and ObjectCount > 0, and Height < totalNodes - 1. -/
def CallerGuarantees (r : stTreeInformation) : Prop :=
  0 < r.objectCount ∧
  (∀ l ∈ r.levelData, 0 < l.NodeCount ∧ 0 < l.ObjectCount) ∧
  r.height < totalNodes r - 1

/-- A report of height 2 with 2 objects, levels (1,2,0) and (3,2,0), and the
optimal baseline that CalculateOptimalTreeInfo(2) simulates for 2 objects:
OptimalHeight 1 with the single level (1,2). -/
def scenarioC : stTreeInformation :=
  { height := 2, minHeight := 2, objectCount := 2
    objectSizeSum := 0, objectSizeCount := 0
    fatFactor := Double.finite 0, bloatFactor := Double.finite 0
    optimalHeight := 1, ready := false
    levelData :=
      [{ NodeCount := 1, ObjectCount := 2, Intersections := 0, FatFactor := Double.finite 0 },
       { NodeCount := 3, ObjectCount := 2, Intersections := 0, FatFactor := Double.finite 0 }]
    optimalLevelData := some [⟨1, 2⟩] }

/-- The report of scenario A with 101 objects instead of 100. -/
def scenarioA101 : stTreeInformation :=
  { scenarioA with objectCount := 101 }

/-- The report of scenario A with 3 objects instead of 100. -/
def scenarioA3 : stTreeInformation :=
  { scenarioA with objectCount := 3 }

/-- The report of scenario A with 4 objects instead of 100. -/
def scenarioA4 : stTreeInformation :=
  { scenarioA with objectCount := 4 }

/-- The report of scenario A with 125 objects instead of 100. -/
def scenarioA125 : stTreeInformation :=
  { scenarioA with objectCount := 125 }

/-- A report of height 2 with 4 objects whose two levels (1,4,2000000000) and
(4,4,2000000000) count 4000000000 intersections together, more than a 32-bit
int holds. -/
def scenarioE : stTreeInformation :=
  { height := 2, minHeight := 2, objectCount := 4
    objectSizeSum := 0, objectSizeCount := 0
    fatFactor := Double.finite 0, bloatFactor := Double.finite 0
    optimalHeight := 0, ready := false
    levelData :=
      [{ NodeCount := 1, ObjectCount := 4, Intersections := 2000000000,
         FatFactor := Double.finite 0 },
       { NodeCount := 4, ObjectCount := 4, Intersections := 2000000000,
         FatFactor := Double.finite 0 }]
    optimalLevelData := none }

/-- A report of height 3 with 5 objects whose levels hold 2147483647,
2147483647 and 6 nodes: 4294967300 nodes together, more than a 32-bit int
holds. -/
def scenarioG : stTreeInformation :=
  { height := 3, minHeight := 3, objectCount := 5
    objectSizeSum := 0, objectSizeCount := 0
    fatFactor := Double.finite 0, bloatFactor := Double.finite 0
    optimalHeight := 0, ready := false
    levelData :=
      [{ NodeCount := 2147483647, ObjectCount := 5, Intersections := 0,
         FatFactor := Double.finite 0 },
       { NodeCount := 2147483647, ObjectCount := 5, Intersections := 0,
         FatFactor := Double.finite 0 },
       { NodeCount := 6, ObjectCount := 5, Intersections := 0,
         FatFactor := Double.finite 0 }]
    optimalLevelData := none }

/-- The report of scenario E with an optimal baseline of height 1 and one
node. -/
def scenarioEB : stTreeInformation :=
  { scenarioE with
    optimalHeight := 1
    optimalLevelData := some [⟨1, 4⟩] }

/-- What the claims on the simulated height use of the function log of the C
library on the ints 1 .. N: its value is a finite double, log(1) is 0 (as the
C standard prescribes), it is non-decreasing, and it is positive from 2 on. -/
def IsLog (log : Int → Double) (N : Int) : Prop :=
  ∃ L : Int → ℚ, (∀ x, 1 ≤ x → x ≤ N → log x = Double.finite (L x)) ∧ L 1 = 0 ∧
    (∀ x y, 1 ≤ x → x ≤ y → y ≤ N → L x ≤ L y) ∧ (∀ x, 2 ≤ x → x ≤ N → 0 < L x)

/-- The doubles that the function log of the C library returns at the
arguments of the scenarios: log(1) = 0 and, at 2, 3, 4, 5, 10, 100, 101, 125
and 2^29, the doubles nearest to the real logarithms (0x1.62e42fefa39efp-1,
0x1.193ea7aad030bp+0, 0x1.62e42fefa39efp+0, 0x1.9c041f7ed8d33p+0,
0x1.26bb1bbb55516p+1, 0x1.26bb1bbb55516p+2, 0x1.275e2271bba31p+2,
0x1.3503179f229e7p+2, 0x1.419ecb712c481p+4). The table has no other entry:
at any other argument it gives the non finite marker, so that no result is
obtained from a value it does not list. -/
def libmLog (x : Int) : Double :=
  if x = 1 then Double.finite 0
  else if x = 2 then Double.finite (6243314768165359 / 9007199254740992)
  else if x = 3 then Double.finite (4947709893870347 / 4503599627370496)
  else if x = 4 then Double.finite (6243314768165359 / 4503599627370496)
  else if x = 5 then Double.finite (7248263982714163 / 4503599627370496)
  else if x = 10 then Double.finite (2592480341699211 / 1125899906842624)
  else if x = 100 then Double.finite (2592480341699211 / 562949953421312)
  else if x = 101 then Double.finite (5196163759979057 / 1125899906842624)
  else if x = 125 then Double.finite (5436197987035623 / 1125899906842624)
  else if x = 536870912 then Double.finite (5658004008649857 / 281474976710656)
  else Double.nonFinite

/-- The rational values of libmLog at 1, 2, 3 and 4. -/
def libmLogValue (x : Int) : ℚ :=
  if x = 2 then 6243314768165359 / 9007199254740992
  else if x = 3 then 4947709893870347 / 4503599627370496
  else if x = 4 then 6243314768165359 / 4503599627370496
  else 0

/-- The original BloatFactor formula, as the comment next to the BloatFactor
assignment in Calculate documents it:
bl = (TotIntersect - double(TeorHeight + 1) * double(numobjects)) /
(double(numobjects) * double(totTeorCountNodes - (TeorHeight + 1))). -/
def originalBloatFactor (TotIntersect TeorHeight numobjects totTeorCountNodes : Int) : Double :=
  (Double.ofInt TotIntersect - Double.ofInt (TeorHeight + 1) * Double.ofInt numobjects) /
    (Double.ofInt numobjects * Double.ofInt (totTeorCountNodes - (TeorHeight + 1)))

/-- A report of height 1 for a tree that stores a single object in a single
node. -/
def scenarioD : stTreeInformation :=
  { height := 1, minHeight := 1, objectCount := 1
    objectSizeSum := 0, objectSizeCount := 0
    fatFactor := Double.finite 0, bloatFactor := Double.finite 0
    optimalHeight := 0, ready := false
    levelData :=
      [{ NodeCount := 1, ObjectCount := 1, Intersections := 0, FatFactor := Double.finite 0 }]
    optimalLevelData := none }

/-! ## Reports in memory -/

/-- The arrays allocated so far. An array pointer is the rank of the
allocation that produced it, so a new allocation never returns a pointer that
is already in use. -/
structure Memory where
  levelArrays : List (List stLevelInfo)
  optimalArrays : List (List stOptimalLevelInfo)

/-- A report object in memory: its scalar members (the fields of `scalars`
other than the two arrays) and its two array pointers; the pointer
optimalLevelData is `none` when NULL. -/
structure Object where
  scalars : stTreeInformation
  levelData : Nat
  optimalLevelData : Option Nat

/-- The value of a report object: its scalar members with the content of the
arrays its pointers designate. -/
def Memory.load (m : Memory) (o : Object) : Option stTreeInformation :=
  (m.levelArrays[o.levelData]?).bind fun ld =>
  match o.optimalLevelData with
  | none => some { o.scalars with levelData := ld, optimalLevelData := none }
  | some p =>
    (m.optimalArrays[p]?).map fun O =>
      { o.scalars with levelData := ld, optimalLevelData := some O }

/-- A method that allocates nothing and writes nothing but the scalar members
and the level array of its object (ResetData and Calculate are such methods),
run on an object in memory: the level array is rewritten in place. -/
def Memory.inPlace (f : stTreeInformation → Option stTreeInformation)
    (m : Memory) (o : Object) : Option (Memory × Object) :=
  (m.load o).bind fun r =>
  (f r).map fun r1 =>
    ({ m with levelArrays := m.levelArrays.set o.levelData r1.levelData },
      { o with scalars := r1 })

/-- Clone run on an object in memory: the level array of the clone is the one
that the constructor allocates, its optimal array (when the original has one)
is allocated by Clone itself; both receive the copied content. Returns the
memory after the call and the clone. -/
def Memory.clone (base : stTreeInformation) (junk : stLevelInfo)
    (m : Memory) (o : Object) : Option (Memory × Object) :=
  (m.load o).bind fun r =>
  (Clone base junk r).map fun c =>
    match c.optimalLevelData with
    | none =>
      ({ m with levelArrays := m.levelArrays ++ [c.levelData] },
        { scalars := c, levelData := m.levelArrays.length, optimalLevelData := none })
    | some O =>
      ({ levelArrays := m.levelArrays ++ [c.levelData],
         optimalArrays := m.optimalArrays ++ [O] },
        { scalars := c, levelData := m.levelArrays.length,
          optimalLevelData := some m.optimalArrays.length })

/-- A memory that holds the arrays of scenario B, and the object of
scenario B in it. -/
def memoryB : Memory :=
  { levelArrays := [scenarioB.levelData], optimalArrays := [[⟨1, 10⟩, ⟨10, 100⟩]] }

/-- The object of scenario B in `memoryB`. -/
def objectB : Object :=
  { scalars := scenarioB, levelData := 0, optimalLevelData := some 0 }

/-! ## 32-bit arithmetic -/

theorem wrap32_of_isInt32 (x : Int) (h : IsInt32 x) : wrap32 x = x := by
  unfold IsInt32 at h
  unfold wrap32
  omega

theorem wrap32_wrap32_add (a b : Int) : wrap32 (wrap32 a + b) = wrap32 (a + b) := by
  unfold wrap32
  omega

theorem wrap32_wrap32_sub (a b : Int) : wrap32 (wrap32 a - b) = wrap32 (a - b) := by
  unfold wrap32
  omega

theorem wrap32_zero : wrap32 0 = 0 := by decide

/-! ## The loops of Calculate -/

theorem foldlM_sumTotals (ld : List stLevelInfo) (n : Nat) (hn : n ≤ ld.length) :
    (List.range n).foldlM
      (fun (acc : Int × Int) i =>
        (ld[i]?).map fun l =>
          (wrap32 (acc.1 + l.Intersections), wrap32 (acc.2 + l.NodeCount)))
      ((0, 0) : Int × Int)
    = some (wrap32 ((ld.take n).map (·.Intersections)).sum,
        wrap32 ((ld.take n).map (·.NodeCount)).sum) := by
  induction n with
  | zero => simp [wrap32_zero]
  | succ n ih =>
    have hlt : n < ld.length := hn
    rw [List.range_succ, List.foldlM_append, ih (Nat.le_of_lt hlt)]
    have hg : ld[n]? = some ld[n] := List.getElem?_eq_getElem hlt
    simp only [List.foldlM_cons, List.foldlM_nil, Option.bind_eq_bind, Option.some_bind, hg,
      Option.map_some', List.take_succ, Option.toList_some, List.map_append, List.sum_append,
      List.map_cons, List.map_nil, List.sum_cons, List.sum_nil, add_zero, pure, Option.bind_some,
      wrap32_wrap32_add]

theorem foldlM_setLocal (ld : List stLevelInfo) (n : Nat) (hn : n ≤ ld.length) :
    (List.range n).foldlM
      (fun (l : List stLevelInfo) i =>
        (l[i]?).map fun x => l.set i { x with FatFactor := localFatFactor x })
      ld
    = some ((ld.take n).map (fun x => { x with FatFactor := localFatFactor x }) ++ ld.drop n) := by
  induction n with
  | zero => simp
  | succ n ih =>
    have hlt : n < ld.length := hn
    rw [List.range_succ, List.foldlM_append, ih (Nat.le_of_lt hlt)]
    have hd : ld.drop n = ld[n] :: ld.drop (n + 1) := List.drop_eq_getElem_cons hlt
    have hlen : ((ld.take n).map
        (fun x => { x with FatFactor := localFatFactor x })).length = n := by
      simp [Nat.min_eq_left (Nat.le_of_lt hlt)]
    simp only [List.foldlM_cons, List.foldlM_nil, Option.bind_eq_bind, Option.some_bind]
    rw [hd, List.getElem?_append_right (by rw [hlen]), hlen]
    simp only [Nat.sub_self, List.getElem?_cons_zero, Option.map_some', Option.some_bind, pure]
    rw [List.set_append_right _ _ (by rw [hlen]), hlen]
    have hg : ld[n]? = some ld[n] := List.getElem?_eq_getElem hlt
    simp only [Nat.sub_self, List.set_cons_zero, List.take_succ, hg, Option.toList_some,
      List.map_append, List.map_cons, List.map_nil, List.append_assoc, List.singleton_append]

theorem foldlM_sumOptimal (O : List stOptimalLevelInfo) (n : Nat) (hn : n ≤ O.length) :
    (List.range n).foldlM
      (fun (acc : Int) i => (O[i]?).map fun o => wrap32 (acc + o.NodeCount)) (0 : Int)
    = some (wrap32 ((O.take n).map (·.NodeCount)).sum) := by
  induction n with
  | zero => simp [wrap32_zero]
  | succ n ih =>
    have hlt : n < O.length := hn
    rw [List.range_succ, List.foldlM_append, ih (Nat.le_of_lt hlt)]
    have hg : O[n]? = some O[n] := List.getElem?_eq_getElem hlt
    simp only [List.foldlM_cons, List.foldlM_nil, Option.bind_eq_bind, Option.some_bind, hg,
      Option.map_some', List.take_succ, Option.toList_some, List.map_append, List.sum_append,
      List.map_cons, List.map_nil, List.sum_cons, List.sum_nil, add_zero, pure, Option.bind_some,
      wrap32_wrap32_add]

/-! ## Double arithmetic on finite values -/

@[simp] theorem Double.finite_sub (a b : ℚ) :
    Double.finite a - Double.finite b = Double.finite (a - b) := rfl

@[simp] theorem Double.finite_mul (a b : ℚ) :
    Double.finite a * Double.finite b = Double.finite (a * b) := rfl

theorem Double.finite_div (a b : ℚ) :
    Double.finite a / Double.finite b =
      if b = 0 then Double.nonFinite else Double.finite (a / b) := rfl

theorem Double.finite_div_of_ne (a : ℚ) {b : ℚ} (hb : b ≠ 0) :
    Double.finite a / Double.finite b = Double.finite (a / b) := by
  rw [Double.finite_div, if_neg hb]

@[simp] theorem Double.finite_div_zero (a : ℚ) :
    Double.finite a / Double.finite 0 = Double.nonFinite := by
  rw [Double.finite_div, if_pos rfl]

@[simp] theorem Double.nonFinite_div (x : Double) :
    Double.nonFinite / x = Double.nonFinite := rfl

/-! ## Calculate on a well-formed report -/

theorem Calculate_eq (r : stTreeInformation) (h : WellFormed r) :
    Calculate r = some { r with
      levelData := r.levelData.map withLocalFatFactor
      fatFactor := fatFactorExpr (numIntersections r) r.height r.objectCount (numNodes r)
      bloatFactor := bloatFactorAfter r
      ready := true } := by
  obtain ⟨hL, hO⟩ := h
  have hlen : r.height.toNat = r.levelData.length := by
    unfold LevelsSized at hL; omega
  have h1 : sumTotals r.height r.levelData = some (numIntersections r, numNodes r) := by
    unfold sumTotals numIntersections numNodes totalIntersections totalNodes
    rw [hlen, foldlM_sumTotals _ _ (Nat.le_refl _), List.take_length]
  have h2 : setLocalFatFactors r.height r.levelData
      = some (r.levelData.map withLocalFatFactor) := by
    unfold setLocalFatFactors
    rw [hlen, foldlM_setLocal _ _ (Nat.le_refl _), List.take_length, List.drop_length,
      List.append_nil]
    rfl
  unfold Calculate
  rw [h1, h2]
  cases hopt : r.optimalLevelData with
  | none => simp [bloatFactorAfter, hopt]
  | some O =>
    have hOlen : r.optimalHeight.toNat = O.length := by
      have := hO O hopt; omega
    have h3 : sumOptimalNodes r.optimalHeight O = some (optNumNodes O) := by
      unfold sumOptimalNodes optNumNodes optimalTotalNodes
      rw [hOlen, foldlM_sumOptimal _ _ (Nat.le_refl _), List.take_length]
    simp [bloatFactorAfter, hopt, h3]

theorem fatFactorExpr_finite (a h n m : Int) (hn : n ≠ 0) (hd : m - h - 1 ≠ 0)
    (h1 : IsInt32 (h + 1)) (h2 : IsInt32 (m - h)) (h3 : IsInt32 (m - h - 1)) :
    fatFactorExpr a h n m =
      Double.finite (((a : ℚ) - ((h : ℚ) + 1) * (n : ℚ)) / ((n : ℚ) * ((m : ℚ) - (h : ℚ) - 1))) := by
  have hd' : ((n : ℚ) * ((m - h - 1 : Int) : ℚ)) ≠ 0 :=
    mul_ne_zero (by exact_mod_cast hn) (by exact_mod_cast hd)
  unfold fatFactorExpr Double.ofInt
  rw [wrap32_of_isInt32 _ h1, wrap32_of_isInt32 _ h2, wrap32_of_isInt32 _ h3]
  simp only [Double.finite_sub, Double.finite_mul]
  rw [Double.finite_div_of_ne _ hd']
  push_cast
  rfl

theorem bloatFactorExpr_finite (a oh n m : Int) (hd : n * m - (oh + 1) ≠ 0)
    (h1 : IsInt32 (oh + 1)) :
    bloatFactorExpr a oh n m =
      Double.finite (((a : ℚ) - ((oh : ℚ) + 1) * (n : ℚ)) / ((n : ℚ) * (m : ℚ) - ((oh : ℚ) + 1))) := by
  have hd' : ((n : ℚ) * (m : ℚ) - ((oh + 1 : Int) : ℚ)) ≠ 0 := by exact_mod_cast hd
  unfold bloatFactorExpr Double.ofInt
  rw [wrap32_of_isInt32 _ h1]
  simp only [Double.finite_sub, Double.finite_mul]
  rw [Double.finite_div_of_ne _ hd']
  push_cast
  rfl

theorem localFatFactor_finite (l : stLevelInfo) (ho : l.ObjectCount ≠ 0) (hn : l.NodeCount ≠ 0)
    (h1 : IsInt32 (l.ObjectCount - l.Intersections)) :
    localFatFactor l =
      Double.finite (((l.ObjectCount : ℚ) - (l.Intersections : ℚ)) / (l.ObjectCount : ℚ)
        / (l.NodeCount : ℚ)) := by
  have ho' : (l.ObjectCount : ℚ) ≠ 0 := by exact_mod_cast ho
  have hn' : (l.NodeCount : ℚ) ≠ 0 := by exact_mod_cast hn
  unfold localFatFactor Double.ofInt
  rw [wrap32_of_isInt32 _ h1, Double.finite_div_of_ne _ ho', Double.finite_div_of_ne _ hn']
  push_cast
  rfl

theorem localFatFactor_isFinite (l : stLevelInfo) (ho : l.ObjectCount ≠ 0)
    (hn : l.NodeCount ≠ 0) : (localFatFactor l).isFinite = true := by
  have ho' : (l.ObjectCount : ℚ) ≠ 0 := by exact_mod_cast ho
  have hn' : (l.NodeCount : ℚ) ≠ 0 := by exact_mod_cast hn
  unfold localFatFactor Double.ofInt
  rw [Double.finite_div_of_ne _ ho', Double.finite_div_of_ne _ hn']
  rfl

theorem wellFormed_scenarioA : WellFormed scenarioA :=
  ⟨by decide, by intro O h; cases h⟩

theorem wellFormed_scenarioB : WellFormed scenarioB :=
  ⟨by decide, by intro O h; cases h; decide⟩

theorem wellFormed_scenarioE : WellFormed scenarioE :=
  ⟨by decide, by intro O h; cases h⟩

theorem wellFormed_scenarioEB : WellFormed scenarioEB :=
  ⟨by decide, by intro O h; cases h; decide⟩

theorem fatFactorInRange_scenarioA : FatFactorInRange scenarioA :=
  ⟨by decide, by decide, by decide, by decide, by decide⟩

theorem fatFactorInRange_scenarioB : FatFactorInRange scenarioB :=
  ⟨by decide, by decide, by decide, by decide, by decide⟩

theorem bloatFactorInRange_scenarioB : BloatFactorInRange scenarioB [⟨1, 10⟩, ⟨10, 100⟩] :=
  ⟨by decide, by decide, by decide⟩

/-! ## Claims on Calculate -/

/-- C1 (as stated, refuted): scenario E meets the conditions of the claim
(ObjectCount 4, totalNodes - Height - 1 = 2), its intersections total
4000000000, which the int numIntersections holds as -294967296, and
Calculate stores the FatFactor (-294967296 - 12) / 8 = -73741827/2, not
(4000000000 - 12) / 8 = 999999997/2. -/
theorem C1_counterexample :
    WellFormed scenarioE ∧ scenarioE.objectCount ≠ 0 ∧
    totalNodes scenarioE - scenarioE.height - 1 ≠ 0 ∧
    totalIntersections scenarioE = 4000000000 ∧ numIntersections scenarioE = -294967296 ∧
    ∃ r1, Calculate scenarioE = some r1 ∧
      r1.fatFactor = Double.finite (-73741827 / 2) ∧
      r1.fatFactor ≠ Double.finite
        (((totalIntersections scenarioE : ℚ) -
            ((scenarioE.height : ℚ) + 1) * (scenarioE.objectCount : ℚ)) /
          ((scenarioE.objectCount : ℚ) *
            ((totalNodes scenarioE : ℚ) - (scenarioE.height : ℚ) - 1))) := by
  have hI : totalIntersections scenarioE = 4000000000 := by decide
  have hN : totalNodes scenarioE = 5 := by decide
  have hnI : numIntersections scenarioE = -294967296 := by
    unfold numIntersections; rw [hI]; decide
  have hnN : numNodes scenarioE = 5 := by
    unfold numNodes; rw [hN]; decide
  have hh : scenarioE.height = 2 := rfl
  have hc : scenarioE.objectCount = 4 := rfl
  have hcode : fatFactorExpr (numIntersections scenarioE) scenarioE.height
      scenarioE.objectCount (numNodes scenarioE) = Double.finite (-73741827 / 2) := by
    rw [hnI, hnN, hh, hc, fatFactorExpr_finite _ _ _ _ (by decide) (by decide) (by decide)
      (by decide) (by decide)]
    congr 1
    norm_num
  refine ⟨wellFormed_scenarioE, by decide, by decide, hI, hnI, _,
    Calculate_eq scenarioE wellFormed_scenarioE, hcode, ?_⟩
  show fatFactorExpr _ _ _ _ ≠ _
  rw [hcode, hI, hN, hh, hc]
  intro h
  injection h with h
  norm_num at h

/-- C1 (amended): on every well-formed report with ObjectCount != 0 and
totalNodes - Height - 1 != 0 whose totals, Height + 1, totalNodes - Height and
totalNodes - Height - 1 are inside the range of a 32-bit int, Calculate returns
and sets the global FatFactor to exactly (totalIntersections -
(Height + 1) * ObjectCount) / (ObjectCount * (totalNodes - Height - 1)); on
scenario A the totals are 40 and 26 and the FatFactor is -360/2200 = -9/55. -/
theorem C1_global_fatFactor :
    (∀ r : stTreeInformation, WellFormed r → r.objectCount ≠ 0 →
      totalNodes r - r.height - 1 ≠ 0 → FatFactorInRange r →
      ∃ r1, Calculate r = some r1 ∧
        r1.fatFactor = Double.finite
          (((totalIntersections r : ℚ) - ((r.height : ℚ) + 1) * (r.objectCount : ℚ)) /
            ((r.objectCount : ℚ) * ((totalNodes r : ℚ) - (r.height : ℚ) - 1)))) ∧
    (totalIntersections scenarioA = 40 ∧ totalNodes scenarioA = 26 ∧
      ∃ r1, Calculate scenarioA = some r1 ∧
        r1.fatFactor = Double.finite (-360 / 2200) ∧
        r1.fatFactor = Double.finite (-9 / 55)) := by
  have gen : ∀ r : stTreeInformation, WellFormed r → r.objectCount ≠ 0 →
      totalNodes r - r.height - 1 ≠ 0 → FatFactorInRange r →
      ∃ r1, Calculate r = some r1 ∧
        r1.fatFactor = Double.finite
          (((totalIntersections r : ℚ) - ((r.height : ℚ) + 1) * (r.objectCount : ℚ)) /
            ((r.objectCount : ℚ) * ((totalNodes r : ℚ) - (r.height : ℚ) - 1))) := by
    intro r hwf hn hd hr
    obtain ⟨hI, hN, h1, h2, h3⟩ := hr
    refine ⟨_, Calculate_eq r hwf, ?_⟩
    show fatFactorExpr (numIntersections r) r.height r.objectCount (numNodes r) = _
    unfold numIntersections numNodes
    rw [wrap32_of_isInt32 _ hI, wrap32_of_isInt32 _ hN]
    exact fatFactorExpr_finite _ _ _ _ hn hd h1 h2 h3
  refine ⟨gen, by decide, by decide, ?_⟩
  obtain ⟨r1, hr1, hf⟩ := gen scenarioA wellFormed_scenarioA (by decide) (by decide)
    fatFactorInRange_scenarioA
  have hI : totalIntersections scenarioA = 40 := by decide
  have hN : totalNodes scenarioA = 26 := by decide
  have hh : scenarioA.height = 3 := rfl
  have hc : scenarioA.objectCount = 100 := rfl
  rw [hI, hN, hh, hc] at hf
  refine ⟨r1, hr1, ?_, ?_⟩
  · rw [hf]; congr 1; norm_num
  · rw [hf]; congr 1; norm_num

/-- Witness of C1 on scenario B. -/
theorem C1_global_fatFactor_witness :
    ∃ r1, Calculate scenarioB = some r1 ∧
      r1.fatFactor = Double.finite
        (((totalIntersections scenarioB : ℚ) -
            ((scenarioB.height : ℚ) + 1) * (scenarioB.objectCount : ℚ)) /
          ((scenarioB.objectCount : ℚ) *
            ((totalNodes scenarioB : ℚ) - (scenarioB.height : ℚ) - 1))) :=
  C1_global_fatFactor.1 scenarioB wellFormed_scenarioB (by decide) (by decide)
    fatFactorInRange_scenarioB

/-- C2 (as stated, refuted): scenario EB has an optimal baseline (height 1,
one node) and the non-zero divisor 4 * 1 - 2 = 2; its intersections total
4000000000, which the int numIntersections holds as -294967296, and
Calculate stores the BloatFactor (-294967296 - 8) / 2 = -147483652, not
(4000000000 - 8) / 2 = 1999999996. -/
theorem C2_counterexample :
    WellFormed scenarioEB ∧ scenarioEB.optimalLevelData = some [⟨1, 4⟩] ∧
    scenarioEB.objectCount * optimalTotalNodes [⟨1, 4⟩] - (scenarioEB.optimalHeight + 1) ≠ 0 ∧
    ∃ r1, Calculate scenarioEB = some r1 ∧
      r1.bloatFactor = Double.finite (-147483652) ∧
      r1.bloatFactor ≠ Double.finite
        (((totalIntersections scenarioEB : ℚ) -
            ((scenarioEB.optimalHeight : ℚ) + 1) * (scenarioEB.objectCount : ℚ)) /
          ((scenarioEB.objectCount : ℚ) * (optimalTotalNodes [⟨1, 4⟩] : ℚ) -
            ((scenarioEB.optimalHeight : ℚ) + 1))) := by
  have hI : totalIntersections scenarioEB = 4000000000 := by decide
  have hnI : numIntersections scenarioEB = -294967296 := by
    unfold numIntersections; rw [hI]; decide
  have hO : optimalTotalNodes [⟨1, 4⟩] = 1 := by decide
  have hnO : optNumNodes [⟨1, 4⟩] = 1 := by
    unfold optNumNodes; rw [hO]; decide
  have hh : scenarioEB.optimalHeight = 1 := rfl
  have hc : scenarioEB.objectCount = 4 := rfl
  have hcode : bloatFactorAfter scenarioEB = Double.finite (-147483652) := by
    show bloatFactorExpr (numIntersections scenarioEB) 1 4 (optNumNodes [⟨1, 4⟩]) = _
    rw [hnI, hnO, bloatFactorExpr_finite _ _ _ _ (by decide) (by decide)]
    congr 1
    norm_num
  refine ⟨wellFormed_scenarioEB, rfl, by decide, _,
    Calculate_eq scenarioEB wellFormed_scenarioEB, hcode, ?_⟩
  show bloatFactorAfter scenarioEB ≠ _
  rw [hcode, hI, hO, hh, hc]
  intro h
  injection h with h
  norm_num at h

/-- C2 (amended): on every well-formed report with an optimal baseline O, a
non-zero divisor ObjectCount * optimalTotalNodes - (OptimalHeight + 1), and
totalIntersections, optimalTotalNodes and OptimalHeight + 1 inside the range of
a 32-bit int, Calculate returns and sets BloatFactor to exactly
(totalIntersections - (OptimalHeight + 1) * ObjectCount) /
(ObjectCount * optimalTotalNodes - (OptimalHeight + 1)). -/
theorem C2_bloatFactor (r : stTreeInformation) (O : List stOptimalLevelInfo)
    (hwf : WellFormed r) (hO : r.optimalLevelData = some O)
    (hd : r.objectCount * optimalTotalNodes O - (r.optimalHeight + 1) ≠ 0)
    (hr : BloatFactorInRange r O) :
    ∃ r1, Calculate r = some r1 ∧
      r1.bloatFactor = Double.finite
        (((totalIntersections r : ℚ) - ((r.optimalHeight : ℚ) + 1) * (r.objectCount : ℚ)) /
          ((r.objectCount : ℚ) * (optimalTotalNodes O : ℚ) - ((r.optimalHeight : ℚ) + 1))) := by
  obtain ⟨hI, hN, h1⟩ := hr
  refine ⟨_, Calculate_eq r hwf, ?_⟩
  show bloatFactorAfter r = _
  unfold bloatFactorAfter
  rw [hO]
  show bloatFactorExpr (numIntersections r) r.optimalHeight r.objectCount (optNumNodes O) = _
  unfold numIntersections optNumNodes
  rw [wrap32_of_isInt32 _ hI, wrap32_of_isInt32 _ hN]
  exact bloatFactorExpr_finite _ _ _ _ hd h1

/-- Witness of C2 on scenario B (baseline of height 2 with 11 nodes). -/
theorem C2_bloatFactor_witness :
    ∃ r1, Calculate scenarioB = some r1 ∧
      r1.bloatFactor = Double.finite
        (((totalIntersections scenarioB : ℚ) -
            ((scenarioB.optimalHeight : ℚ) + 1) * (scenarioB.objectCount : ℚ)) /
          ((scenarioB.objectCount : ℚ) * (optimalTotalNodes [⟨1, 10⟩, ⟨10, 100⟩] : ℚ) -
            ((scenarioB.optimalHeight : ℚ) + 1))) :=
  C2_bloatFactor scenarioB [⟨1, 10⟩, ⟨10, 100⟩] wellFormed_scenarioB rfl (by decide)
    bloatFactorInRange_scenarioB

theorem Double.rne_bounds (m : ℚ) : ⌊m⌋ ≤ Double.rne m ∧ Double.rne m ≤ ⌊m⌋ + 1 := by
  unfold Double.rne
  split_ifs <;> constructor <;> omega

theorem Double.rne_intCast (z : Int) : Double.rne (z : ℚ) = z := by
  unfold Double.rne
  rw [Int.floor_intCast]
  simp

theorem Double.rne_mono {m1 m2 : ℚ} (h : m1 ≤ m2) : Double.rne m1 ≤ Double.rne m2 := by
  have hf : ⌊m1⌋ ≤ ⌊m2⌋ := Int.floor_mono h
  rcases lt_or_eq_of_le hf with hlt | heq
  · have h1 := (Double.rne_bounds m1).2
    have h2 := (Double.rne_bounds m2).1
    omega
  · unfold Double.rne
    rw [← heq]
    split_ifs <;> first | omega | (exfalso; linarith)

theorem Double.rne_sub_le (m : ℚ) : (m - 1 / 2 : ℚ) ≤ (Double.rne m : ℚ) := by
  have h1 := Int.floor_le m
  have h2 := Int.lt_floor_add_one m
  unfold Double.rne
  split_ifs with ha hb hc
  · linarith
  · push_cast; linarith
  · linarith
  · push_cast; linarith

theorem Double.rne_eq_of_abs_lt (m : ℚ) (z : Int) (h : |m - (z : ℚ)| < 1 / 2) :
    Double.rne m = z := by
  rw [abs_lt] at h
  obtain ⟨h1, h2⟩ := h
  have hfl : ⌊m⌋ = z ∨ ⌊m⌋ = z - 1 := by
    have ha : z - 1 ≤ ⌊m⌋ := by
      rw [Int.le_floor]; push_cast; linarith
    have hb : ⌊m⌋ < z + 1 := by
      rw [Int.floor_lt]; push_cast; linarith
    omega
  unfold Double.rne
  rcases hfl with hz | hz
  · rw [hz, if_pos (by linarith)]
  · have hc : (⌊m⌋ : ℚ) = (z : ℚ) - 1 := by rw [hz]; push_cast; ring
    rw [if_neg (by rw [hc]; linarith), if_pos (by rw [hc]; linarith), hz]
    ring

theorem Double.binade (x : ℚ) (hx : 0 < x) :
    (2 : ℚ) ^ Int.log 2 x ≤ x ∧ x < (2 : ℚ) ^ (Int.log 2 x + 1) := by
  have h1 := Int.zpow_log_le_self (b := 2) (by decide) hx
  have h2 := Int.lt_zpow_succ_log_self (b := 2) (by decide) x
  simp only [Nat.cast_ofNat] at h1 h2
  exact ⟨h1, h2⟩

theorem Double.log_eq_of_binade (x : ℚ) (e : Int) (h1 : (2 : ℚ) ^ e ≤ x)
    (h2 : x < (2 : ℚ) ^ (e + 1)) : Int.log 2 x = e := by
  have hx : 0 < x := lt_of_lt_of_le (by positivity) h1
  have ha : e ≤ Int.log 2 x := by
    rw [← Int.zpow_le_iff_le_log (by decide) hx]
    simpa using h1
  have hb : Int.log 2 x < e + 1 := by
    rw [← Int.lt_zpow_iff_log_lt (by decide) hx]
    simpa using h2
  omega

theorem Double.scaled_bounds (x : ℚ) (e : Int) (h1 : (2 : ℚ) ^ e ≤ x)
    (h2 : x < (2 : ℚ) ^ (e + 1)) :
    (2 : ℚ) ^ 52 ≤ x / 2 ^ (e - 52) ∧ x / 2 ^ (e - 52) ≤ (2 : ℚ) ^ 53 := by
  have hu : (0 : ℚ) < 2 ^ (e - 52) := by positivity
  have e1 : (2 : ℚ) ^ e = 2 ^ 52 * 2 ^ (e - 52) := by
    rw [← zpow_natCast (2 : ℚ) 52, ← zpow_add₀ (by norm_num)]
    congr 1
    push_cast
    ring
  have e2 : (2 : ℚ) ^ (e + 1) = 2 ^ 53 * 2 ^ (e - 52) := by
    rw [← zpow_natCast (2 : ℚ) 53, ← zpow_add₀ (by norm_num)]
    congr 1
    push_cast
    ring
  constructor
  · rw [le_div_iff₀ hu, ← e1]
    exact h1
  · rw [div_le_iff₀ hu, ← e2]
    exact le_of_lt h2

theorem Double.roundPos_bounds (x : ℚ) (hx : 0 < x) :
    (2 : ℚ) ^ Int.log 2 x ≤ Double.roundPos x ∧
      Double.roundPos x ≤ (2 : ℚ) ^ (Int.log 2 x + 1) := by
  obtain ⟨h1, h2⟩ := Double.binade x hx
  obtain ⟨s1, s2⟩ := Double.scaled_bounds x _ h1 h2
  have hu : (0 : ℚ) < 2 ^ (Int.log 2 x - 52) := by positivity
  have c1 : (((2 : Int) ^ 52 : Int) : ℚ) = (2 : ℚ) ^ 52 := by norm_num
  have c2 : (((2 : Int) ^ 53 : Int) : ℚ) = (2 : ℚ) ^ 53 := by norm_num
  have r1 : ((2 : Int) ^ 52 : Int) ≤ Double.rne (x / 2 ^ (Int.log 2 x - 52)) := by
    have := Double.rne_mono (le_of_eq_of_le c1 s1)
    rwa [Double.rne_intCast] at this
  have r2 : Double.rne (x / 2 ^ (Int.log 2 x - 52)) ≤ ((2 : Int) ^ 53 : Int) := by
    have := Double.rne_mono (le_of_le_of_eq s2 c2.symm)
    rwa [Double.rne_intCast] at this
  have r1' : ((2 : ℚ) ^ 52) ≤ (Double.rne (x / 2 ^ (Int.log 2 x - 52)) : ℚ) := by
    rw [← c1]; exact_mod_cast r1
  have r2' : (Double.rne (x / 2 ^ (Int.log 2 x - 52)) : ℚ) ≤ ((2 : ℚ) ^ 53) := by
    rw [← c2]; exact_mod_cast r2
  have e1 : (2 : ℚ) ^ Int.log 2 x = 2 ^ 52 * 2 ^ (Int.log 2 x - 52) := by
    rw [← zpow_natCast (2 : ℚ) 52, ← zpow_add₀ (by norm_num)]
    congr 1
    push_cast
    ring
  have e2 : (2 : ℚ) ^ (Int.log 2 x + 1) = 2 ^ 53 * 2 ^ (Int.log 2 x - 52) := by
    rw [← zpow_natCast (2 : ℚ) 53, ← zpow_add₀ (by norm_num)]
    congr 1
    push_cast
    ring
  unfold Double.roundPos
  rw [e1, e2]
  exact ⟨mul_le_mul_of_nonneg_right r1' (le_of_lt hu),
    mul_le_mul_of_nonneg_right r2' (le_of_lt hu)⟩

theorem Double.roundPos_pos (x : ℚ) (hx : 0 < x) : 0 < Double.roundPos x :=
  lt_of_lt_of_le (by positivity) (Double.roundPos_bounds x hx).1

theorem Double.roundPos_mono {x y : ℚ} (hx : 0 < x) (hxy : x ≤ y) :
    Double.roundPos x ≤ Double.roundPos y := by
  have hy : 0 < y := lt_of_lt_of_le hx hxy
  have hlog : Int.log 2 x ≤ Int.log 2 y := Int.log_mono_right hx hxy
  rcases lt_or_eq_of_le hlog with hlt | heq
  · have h1 := (Double.roundPos_bounds x hx).2
    have h2 := (Double.roundPos_bounds y hy).1
    have h3 : (2 : ℚ) ^ (Int.log 2 x + 1) ≤ 2 ^ Int.log 2 y :=
      zpow_le_zpow_right₀ (by norm_num) (by omega)
    linarith
  · unfold Double.roundPos
    rw [← heq]
    have hu : (0 : ℚ) < 2 ^ (Int.log 2 x - 52) := by positivity
    have hm : x / 2 ^ (Int.log 2 x - 52) ≤ y / 2 ^ (Int.log 2 x - 52) :=
      div_le_div_of_nonneg_right hxy (le_of_lt hu)
    have := Double.rne_mono hm
    have hc : (Double.rne (x / 2 ^ (Int.log 2 x - 52)) : ℚ)
        ≤ (Double.rne (y / 2 ^ (Int.log 2 x - 52)) : ℚ) := by exact_mod_cast this
    exact mul_le_mul_of_nonneg_right hc (le_of_lt hu)

theorem Double.roundPos_rel (x : ℚ) (hx : 0 < x) :
    x * (1 - 1 / 2 ^ 53) ≤ Double.roundPos x := by
  obtain ⟨h1, _⟩ := Double.binade x hx
  have hu : (0 : ℚ) < 2 ^ (Int.log 2 x - 52) := by positivity
  have hr := Double.rne_sub_le (x / 2 ^ (Int.log 2 x - 52))
  have e1 : (2 : ℚ) ^ Int.log 2 x = 2 ^ 52 * 2 ^ (Int.log 2 x - 52) := by
    rw [← zpow_natCast (2 : ℚ) 52, ← zpow_add₀ (by norm_num)]
    congr 1
    push_cast
    ring
  have h2 : (x / 2 ^ (Int.log 2 x - 52) - 1 / 2) * 2 ^ (Int.log 2 x - 52)
      ≤ Double.roundPos x := by
    unfold Double.roundPos
    exact mul_le_mul_of_nonneg_right hr (le_of_lt hu)
  have h3 : (x / 2 ^ (Int.log 2 x - 52) - 1 / 2) * 2 ^ (Int.log 2 x - 52)
      = x - 2 ^ (Int.log 2 x - 52) / 2 := by
    field_simp
    ring
  rw [h3] at h2
  have h4 : (2 : ℚ) ^ (Int.log 2 x - 52) / 2 ≤ x * (1 / 2 ^ 53) := by
    rw [e1] at h1
    have : (2 : ℚ) ^ (Int.log 2 x - 52) ≤ x / 2 ^ 52 := by
      rw [le_div_iff₀ (by positivity)]
      linarith
    calc (2 : ℚ) ^ (Int.log 2 x - 52) / 2 ≤ x / 2 ^ 52 / 2 :=
          div_le_div_of_nonneg_right this (by norm_num)
      _ = x * (1 / 2 ^ 53) := by ring
  linarith

theorem Double.roundPos_eq_of (x : ℚ) (e : Int) (z : Int) (h1 : (2 : ℚ) ^ e ≤ x)
    (h2 : x < (2 : ℚ) ^ (e + 1)) (hz : |x / 2 ^ (e - 52) - (z : ℚ)| < 1 / 2) :
    Double.roundPos x = (z : ℚ) * 2 ^ (e - 52) := by
  unfold Double.roundPos
  rw [Double.log_eq_of_binade x e h1 h2, Double.rne_eq_of_abs_lt _ z hz]

theorem Double.roundNearestEven_of_pos (x : ℚ) (hx : 0 < x) :
    Double.roundNearestEven x = Double.roundPos x := by
  unfold Double.roundNearestEven
  rw [if_neg (ne_of_gt hx), if_pos hx]

theorem Double.roundNearestEven_zero : Double.roundNearestEven 0 = 0 := by
  unfold Double.roundNearestEven
  rw [if_pos rfl]

theorem Double.roundNearestEven_pos (x : ℚ) (hx : 0 < x) : 0 < Double.roundNearestEven x := by
  rw [Double.roundNearestEven_of_pos x hx]
  exact Double.roundPos_pos x hx

theorem Double.roundNearestEven_mono {x y : ℚ} (hx : 0 ≤ x) (hxy : x ≤ y) :
    Double.roundNearestEven x ≤ Double.roundNearestEven y := by
  rcases eq_or_lt_of_le hx with h0 | hpos
  · rw [← h0, Double.roundNearestEven_zero]
    rcases eq_or_lt_of_le (le_trans hx hxy) with hy0 | hypos
    · rw [← hy0, Double.roundNearestEven_zero]
    · exact le_of_lt (Double.roundNearestEven_pos y hypos)
  · rw [Double.roundNearestEven_of_pos x hpos,
      Double.roundNearestEven_of_pos y (lt_of_lt_of_le hpos hxy)]
    exact Double.roundPos_mono hpos hxy

/-! ## The simulated optimal tree -/

theorem ceilDiv_of_ne (a : Int) {b : Int} (hb : b ≠ 0) :
    ceilDiv a b = some (ceilStep b a) := by
  have hb' : (b : ℚ) ≠ 0 := by exact_mod_cast hb
  unfold ceilDiv Double.ofInt ceilStep
  rw [Double.finite_div_of_ne _ hb']
  rfl

theorem ceilStep_eq_ediv (k x : Int) (hk : 0 < k) : ceilStep k x = (x + k - 1) / k := by
  unfold ceilStep
  rw [Int.ceil_eq_iff]
  have hk' : (0 : ℚ) < (k : ℚ) := by exact_mod_cast hk
  have h1 := Int.ediv_mul_le (x + k - 1) (ne_of_gt hk)
  have h2 := Int.lt_ediv_add_one_mul_self (x + k - 1) hk
  constructor
  · rw [lt_div_iff₀ hk']
    have : ((x + k - 1) / k - 1) * k < x := by nlinarith
    exact_mod_cast this
  · rw [div_le_iff₀ hk']
    have : x ≤ (x + k - 1) / k * k := by nlinarith
    exact_mod_cast this

theorem optimalChain_length (k : Int) (h : Nat) (n : Int) :
    (optimalChain k h n).length = h := by
  induction h generalizing n with
  | zero => rfl
  | succ h ih => simp [optimalChain, ih]

theorem optimalChain_getElem? (k : Int) (h : Nat) (n : Int) (i : Nat) (hi : i < h) :
    (optimalChain k h n)[i]? =
      some ⟨(ceilStep k)^[h - i] n, (ceilStep k)^[h - i - 1] n⟩ := by
  induction h generalizing n with
  | zero => omega
  | succ h ih =>
    unfold optimalChain
    by_cases hlt : i < h
    · rw [List.getElem?_append_left (by rw [optimalChain_length]; exact hlt), ih _ hlt]
      have e1 : h + 1 - i = (h - i - 1) + 1 + 1 := by omega
      have e2 : h - i = (h - i - 1) + 1 := by omega
      rw [e1, e2]
      simp only [Nat.add_sub_cancel, Function.iterate_succ_apply]
    · have hih : i = h := by omega
      subst hih
      rw [List.getElem?_append_right (by rw [optimalChain_length]), optimalChain_length]
      simp

theorem otherLevels_eq (k : Int) (hk : k ≠ 0) (i : Nat) (O : List stOptimalLevelInfo)
    (cur : stOptimalLevelInfo) (hcur : O[i]? = some cur) :
    otherLevels k i O = some (optimalChain k i cur.NodeCount ++ O.drop i) := by
  induction i generalizing O cur with
  | zero => simp [otherLevels, optimalChain]
  | succ i ih =>
    have hlt : i + 1 < O.length := by
      by_contra hge
      rw [List.getElem?_eq_none (Nat.le_of_not_lt hge)] at hcur
      cases hcur
    have hw : writeAt O (i : Int) ⟨ceilStep k cur.NodeCount, cur.NodeCount⟩
        = some (O.set i ⟨ceilStep k cur.NodeCount, cur.NodeCount⟩) := by
      unfold writeAt
      rw [if_pos ⟨by omega, by omega⟩]
      simp
    have hget : (O.set i ⟨ceilStep k cur.NodeCount, cur.NodeCount⟩)[i]?
        = some ⟨ceilStep k cur.NodeCount, cur.NodeCount⟩ := by
      rw [List.getElem?_set_self (Nat.lt_of_succ_lt hlt)]
    unfold otherLevels
    rw [hcur]
    simp only [Option.some_bind, ceilDiv_of_ne _ hk, hw]
    rw [ih _ _ hget]
    have hdrop : (O.set i ⟨ceilStep k cur.NodeCount, cur.NodeCount⟩).drop i
        = ⟨ceilStep k cur.NodeCount, cur.NodeCount⟩ :: O.drop (i + 1) := by
      rw [List.drop_eq_getElem_cons (by simpa using Nat.lt_of_succ_lt hlt)]
      simp [List.drop_set]
    rw [hdrop]
    simp [optimalChain]

theorem ceilStep_mono (k : Int) (hk : 0 < k) : Monotone (ceilStep k) := by
  intro a b hab
  unfold ceilStep
  apply Int.ceil_mono
  have hk' : (0 : ℚ) < (k : ℚ) := by exact_mod_cast hk
  have hab' : (a : ℚ) ≤ (b : ℚ) := by exact_mod_cast hab
  exact div_le_div_of_nonneg_right hab' (le_of_lt hk')

theorem ceilStep_pos (k x : Int) (hk : 0 < k) (hx : 1 ≤ x) : 1 ≤ ceilStep k x := by
  rw [ceilStep_eq_ediv k x hk]
  exact Int.le_ediv_of_mul_le hk (by omega)

theorem ceilStep_le_self (k x : Int) (hk : 0 < k) (hx : 0 ≤ x) : ceilStep k x ≤ x := by
  rw [ceilStep_eq_ediv k x hk]
  have h : (x + k - 1) / k < x + 1 := Int.ediv_lt_of_lt_mul hk (by nlinarith)
  omega

theorem ceilStep_le_pow (k x : Int) (m : Nat) (hk : 0 < k) (hx : x ≤ k ^ (m + 1)) :
    ceilStep k x ≤ k ^ m := by
  rw [ceilStep_eq_ediv k x hk]
  have h : (x + k - 1) / k < k ^ m + 1 := by
    apply Int.ediv_lt_of_lt_mul hk
    rw [pow_succ] at hx
    nlinarith
  omega

theorem iterate_ceilStep_pos (k : Int) (hk : 0 < k) (m : Nat) (x : Int) (hx : 1 ≤ x) :
    1 ≤ (ceilStep k)^[m] x := by
  induction m generalizing x with
  | zero => exact hx
  | succ m ih =>
    rw [Function.iterate_succ_apply]
    exact ih _ (ceilStep_pos k x hk hx)

theorem iterate_ceilStep_le_one (k : Int) (hk : 0 < k) (m : Nat) (x : Int) (hx : x ≤ k ^ m) :
    (ceilStep k)^[m] x ≤ 1 := by
  induction m generalizing x with
  | zero => simpa using hx
  | succ m ih =>
    rw [Function.iterate_succ_apply]
    exact ih _ (ceilStep_le_pow k x m hk hx)

theorem length_le_optimalTotalNodes (O : List stOptimalLevelInfo)
    (h : ∀ l ∈ O, 1 ≤ l.NodeCount) : (O.length : Int) ≤ optimalTotalNodes O := by
  unfold optimalTotalNodes
  induction O with
  | nil => simp
  | cons a O ih =>
    have h1 := h a (List.mem_cons_self _ _)
    have h2 := ih (fun l hl => h l (List.mem_cons_of_mem _ hl))
    simp only [List.length_cons, List.map_cons, List.sum_cons]
    push_cast
    omega

theorem optimalChain_nodeCount_pos (k : Int) (hk : 0 < k) (h : Nat) (n : Int) (hn : 1 ≤ n) :
    ∀ l ∈ optimalChain k h n, 1 ≤ l.NodeCount := by
  intro l hl
  obtain ⟨i, hi⟩ := List.mem_iff_getElem?.1 hl
  have hlt : i < h := by
    by_contra hge
    rw [List.getElem?_eq_none (by rw [optimalChain_length]; omega)] at hi
    cases hi
  rw [optimalChain_getElem? k h n i hlt] at hi
  cases hi
  exact iterate_ceilStep_pos k hk _ n hn

theorem optimalChain_fromLeaves (k : Int) (h : Nat) (n : Int) (j : Nat) (hj : j < h) :
    (optimalChain k h n)[h - 1 - j]? =
      some ⟨(ceilStep k)^[j + 1] n, (ceilStep k)^[j] n⟩ := by
  rw [optimalChain_getElem? k h n (h - 1 - j) (by omega)]
  have e1 : h - (h - 1 - j) = j + 1 := by omega
  rw [e1]
  rfl

/-! ## The height computed by CalculateOptimalTreeInfo -/

theorem ceilLogxy_finite (log : Int → Double) (x y : Int) (a b : ℚ)
    (ha : log x = Double.finite a) (hb : log y = Double.finite b) (hb0 : b ≠ 0) :
    ceilLogxy log x y = some ⌈Double.roundNearestEven (a / b)⌉ := by
  unfold ceilLogxy logxy
  rw [ha, hb]
  unfold Double.divIEEE
  simp only [if_neg hb0]
  rfl

theorem ceilLogxy_pos (log : Int → Double) (x y : Int) (a b : ℚ)
    (ha : log x = Double.finite a) (hb : log y = Double.finite b)
    (ha0 : 0 < a) (hb0 : 0 < b) :
    ∃ h : Nat, 1 ≤ h ∧ ceilLogxy log x y = some (h : Int) ∧
      (h : Int) = ⌈Double.roundNearestEven (a / b)⌉ := by
  have hq : 0 < Double.roundNearestEven (a / b) :=
    Double.roundNearestEven_pos _ (div_pos ha0 hb0)
  have hc : 0 < ⌈Double.roundNearestEven (a / b)⌉ := Int.ceil_pos.2 hq
  refine ⟨⌈Double.roundNearestEven (a / b)⌉.toNat, by omega, ?_, by omega⟩
  rw [ceilLogxy_finite log x y a b ha hb (ne_of_gt hb0)]
  congr 1
  omega

theorem CalculateOptimalTreeInfo_eq (log : Int → Double) (junk : stOptimalLevelInfo)
    (k : Int) (r : stTreeInformation) (h : Nat) (hh : 1 ≤ h) (hk0 : k ≠ 0)
    (hlog : ceilLogxy log r.objectCount k = some (h : Int)) :
    CalculateOptimalTreeInfo log junk k r = some (Invalidate { r with
      optimalHeight := (h : Int)
      optimalLevelData := some (optimalChain k h r.objectCount) }) := by
  obtain ⟨m, hm⟩ : ∃ m, h = m + 1 := ⟨h - 1, by omega⟩
  subst hm
  unfold CalculateOptimalTreeInfo
  rw [hlog]
  simp only [Option.some_bind]
  rw [if_neg (by omega), ceilDiv_of_ne _ hk0]
  simp only [Option.some_bind]
  have hidx : ((m + 1 : Nat) : Int) - 1 = (m : Int) := by push_cast; ring
  have hw : writeAt (List.replicate ((m + 1 : Nat) : Int).toNat junk) (((m + 1 : Nat) : Int) - 1)
      (⟨ceilStep k r.objectCount, r.objectCount⟩ : stOptimalLevelInfo)
      = some ((List.replicate (m + 1) junk).set m ⟨ceilStep k r.objectCount, r.objectCount⟩) := by
    unfold writeAt
    rw [hidx, Int.toNat_ofNat, if_pos ⟨by omega, by simp⟩]
    simp
  rw [hw]
  simp only [Option.some_bind]
  rw [hidx, Int.toNat_ofNat]
  have hget : ((List.replicate (m + 1) junk).set m
      (⟨ceilStep k r.objectCount, r.objectCount⟩ : stOptimalLevelInfo))[m]?
      = some ⟨ceilStep k r.objectCount, r.objectCount⟩ := by
    rw [List.getElem?_set_self (by simp)]
  rw [otherLevels_eq k hk0 m _ _ hget]
  have hdrop : ((List.replicate (m + 1) junk).set m
      (⟨ceilStep k r.objectCount, r.objectCount⟩ : stOptimalLevelInfo)).drop m
      = [⟨ceilStep k r.objectCount, r.objectCount⟩] := by
    rw [List.drop_eq_getElem_cons (by simp)]
    simp [List.drop_set]
  rw [hdrop]
  simp [optimalChain]

theorem CalculateOptimalTreeInfo_of_pos (log : Int → Double) (junk : stOptimalLevelInfo)
    (k : Int) (r : stTreeInformation) (a b : ℚ) (hk0 : k ≠ 0)
    (ha : log r.objectCount = Double.finite a) (hb : log k = Double.finite b)
    (ha0 : 0 < a) (hb0 : 0 < b) :
    ∃ h : Nat, 1 ≤ h ∧ (h : Int) = ⌈Double.roundNearestEven (a / b)⌉ ∧
      ceilLogxy log r.objectCount k = some (h : Int) ∧
      CalculateOptimalTreeInfo log junk k r = some (Invalidate { r with
        optimalHeight := (h : Int)
        optimalLevelData := some (optimalChain k h r.objectCount) }) := by
  obtain ⟨h, h1, hlog, hval⟩ := ceilLogxy_pos log r.objectCount k a b ha hb ha0 hb0
  exact ⟨h, h1, hval, hlog, CalculateOptimalTreeInfo_eq log junk k r h h1 hk0 hlog⟩

/-! ## The quotients of CalculateOptimalTreeInfo and rounding -/

theorem Double.roundPos_intCast (c : Int) (h1 : 1 ≤ c) (h2 : c < 2 ^ 53) :
    Double.roundPos (c : ℚ) = (c : ℚ) := by
  have hc : (0 : ℚ) < (c : ℚ) := by exact_mod_cast (by omega : (0 : Int) < c)
  obtain ⟨b1, b2⟩ := Double.binade (c : ℚ) hc
  have h1q : (1 : ℚ) ≤ (c : ℚ) := by exact_mod_cast h1
  have h2q : (c : ℚ) < (2 : ℚ) ^ (53 : Int) := by
    have : ((c : Int) : ℚ) < (((2 : Int) ^ 53 : Int) : ℚ) := by exact_mod_cast h2
    norm_num at this ⊢
    exact this
  have he0 : 0 ≤ Int.log 2 (c : ℚ) := by
    by_contra hneg
    have hle : Int.log 2 (c : ℚ) + 1 ≤ 0 := by omega
    have : (2 : ℚ) ^ (Int.log 2 (c : ℚ) + 1) ≤ 2 ^ (0 : Int) :=
      zpow_le_zpow_right₀ (by norm_num) hle
    norm_num at this
    linarith
  have he52 : Int.log 2 (c : ℚ) ≤ 52 := by
    by_contra hbig
    have hle : (53 : Int) ≤ Int.log 2 (c : ℚ) := by omega
    have : (2 : ℚ) ^ (53 : Int) ≤ 2 ^ Int.log 2 (c : ℚ) :=
      zpow_le_zpow_right₀ (by norm_num) hle
    linarith
  obtain ⟨n, hn⟩ : ∃ n : Nat, (n : Int) = 52 - Int.log 2 (c : ℚ) :=
    ⟨(52 - Int.log 2 (c : ℚ)).toNat, by omega⟩
  have hexp : Int.log 2 (c : ℚ) - 52 = -(n : Int) := by omega
  have hq : (c : ℚ) / 2 ^ (Int.log 2 (c : ℚ) - 52) = ((c * 2 ^ n : Int) : ℚ) := by
    rw [hexp, zpow_neg, zpow_natCast]
    push_cast
    field_simp
  rw [Double.roundPos_eq_of (c : ℚ) (Int.log 2 (c : ℚ)) (c * 2 ^ n) b1 b2
    (by rw [hq, sub_self, abs_zero]; norm_num)]
  rw [hexp, zpow_neg, zpow_natCast]
  push_cast
  field_simp

/-- The IEEE quotient of two positive 32-bit ints is never rounded across an
integer: its ceiling is the ceiling of the exact quotient. -/
theorem ceil_roundNearestEven_div (a b : Int) (ha : 1 ≤ a) (ha31 : a < 2147483648)
    (hb : 1 ≤ b) :
    ⌈Double.roundNearestEven ((a : ℚ) / (b : ℚ))⌉ = ⌈(a : ℚ) / (b : ℚ)⌉ := by
  have haq : (1 : ℚ) ≤ (a : ℚ) := by exact_mod_cast ha
  have hbq : (1 : ℚ) ≤ (b : ℚ) := by exact_mod_cast hb
  have hb0 : (0 : ℚ) < (b : ℚ) := by linarith
  have hx : (0 : ℚ) < (a : ℚ) / (b : ℚ) := div_pos (by linarith) hb0
  have hxa : (a : ℚ) / (b : ℚ) ≤ (a : ℚ) := div_le_self (by linarith) hbq
  have hc1 : 1 ≤ ⌈(a : ℚ) / (b : ℚ)⌉ := Int.one_le_ceil_iff.2 hx
  have hca : ⌈(a : ℚ) / (b : ℚ)⌉ ≤ a := Int.ceil_le.2 hxa
  have hle : (a : ℚ) / (b : ℚ) ≤ (⌈(a : ℚ) / (b : ℚ)⌉ : ℚ) := Int.le_ceil _
  rw [Double.roundNearestEven_of_pos _ hx, Int.ceil_eq_iff]
  constructor
  · have hrel := Double.roundPos_rel _ hx
    have hlt : ((⌈(a : ℚ) / (b : ℚ)⌉ - 1 : Int) : ℚ) < (a : ℚ) / (b : ℚ) := by
      have := Int.ceil_lt_add_one ((a : ℚ) / (b : ℚ))
      push_cast
      linarith
    have hint : (⌈(a : ℚ) / (b : ℚ)⌉ - 1) * b < a := by
      have h : ((⌈(a : ℚ) / (b : ℚ)⌉ - 1 : Int) : ℚ) * (b : ℚ) < (a : ℚ) :=
        (lt_div_iff₀ hb0).1 hlt
      exact_mod_cast h
    have hint1 : (⌈(a : ℚ) / (b : ℚ)⌉ - 1) * b + 1 ≤ a := by omega
    have hq1 : ((⌈(a : ℚ) / (b : ℚ)⌉ : ℚ) - 1) * (b : ℚ) + 1 ≤ (a : ℚ) := by
      exact_mod_cast hint1
    have hge : ((⌈(a : ℚ) / (b : ℚ)⌉ : ℚ) - 1) + 1 / (b : ℚ) ≤ (a : ℚ) / (b : ℚ) := by
      rw [le_div_iff₀ hb0]
      have : (((⌈(a : ℚ) / (b : ℚ)⌉ : ℚ) - 1) + 1 / (b : ℚ)) * (b : ℚ)
          = ((⌈(a : ℚ) / (b : ℚ)⌉ : ℚ) - 1) * (b : ℚ) + 1 := by
        field_simp
      rw [this]
      exact hq1
    have ha53 : (a : ℚ) < 2 ^ 53 := by
      have : (a : ℚ) < 2147483648 := by exact_mod_cast ha31
      norm_num
      linarith
    have hsmall : (a : ℚ) / (b : ℚ) * (1 / 2 ^ 53) < 1 / (b : ℚ) := by
      rw [div_mul_eq_mul_div, div_lt_div_iff_of_pos_right hb0]
      have : (a : ℚ) * (1 / 2 ^ 53) < 2 ^ 53 * (1 / 2 ^ 53) :=
        mul_lt_mul_of_pos_right ha53 (by norm_num)
      norm_num at this ⊢
      linarith
    have hexp : (a : ℚ) / (b : ℚ) * (1 - 1 / 2 ^ 53)
        = (a : ℚ) / (b : ℚ) - (a : ℚ) / (b : ℚ) * (1 / 2 ^ 53) := by ring
    rw [hexp] at hrel
    linarith
  · have hmono := Double.roundPos_mono hx hle
    rw [Double.roundPos_intCast _ hc1 (by omega)] at hmono
    exact hmono

/-- The value int(ceil(double(a) / double(b))) with the quotient rounded as the
division instruction rounds it is the value of ceilDiv, which takes the ceiling
of the exact quotient, for positive 32-bit ints. -/
theorem ceilDiv_rounded (a b : Int) (ha : 1 ≤ a) (ha31 : a < 2147483648) (hb : 1 ≤ b) :
    (Double.divIEEE (Double.ofInt a) (Double.ofInt b)).ceilToInt = ceilDiv a b := by
  have hb' : (b : ℚ) ≠ 0 := by
    have : (1 : ℚ) ≤ (b : ℚ) := by exact_mod_cast hb
    linarith
  unfold ceilDiv Double.ofInt
  rw [Double.finite_div_of_ne _ hb']
  unfold Double.divIEEE
  simp only [if_neg hb']
  show some _ = some _
  rw [ceil_roundNearestEven_div a b ha ha31 hb]

theorem isLog_libmLog : IsLog libmLog 4 := by
  refine ⟨libmLogValue, ?_, rfl, ?_, ?_⟩
  · intro x h1 h4
    interval_cases x <;> rfl
  · intro x y h1 hxy h4
    have hx4 : x ≤ 4 := le_trans hxy h4
    have hy1 : 1 ≤ y := le_trans h1 hxy
    interval_cases x <;> interval_cases y <;> norm_num [libmLogValue]
  · intro x h2 h4
    interval_cases x <;> norm_num [libmLogValue]

theorem ceilLogxy_eval (log : Int → Double) (x y : Int) (a b : ℚ) (e z c : Int)
    (ha : log x = Double.finite a) (hb : log y = Double.finite b) (hb0 : b ≠ 0)
    (h1 : (2 : ℚ) ^ e ≤ a / b) (h2 : a / b < (2 : ℚ) ^ (e + 1))
    (hz : |a / b / 2 ^ (e - 52) - (z : ℚ)| < 1 / 2)
    (hc1 : (c : ℚ) - 1 < (z : ℚ) * 2 ^ (e - 52)) (hc2 : (z : ℚ) * 2 ^ (e - 52) ≤ (c : ℚ)) :
    ceilLogxy log x y = some c := by
  have hpos : 0 < a / b := lt_of_lt_of_le (by positivity) h1
  rw [ceilLogxy_finite log x y a b ha hb hb0, Double.roundNearestEven_of_pos _ hpos,
    Double.roundPos_eq_of _ e z h1 h2 hz]
  congr 1
  rw [Int.ceil_eq_iff]
  exact ⟨hc1, hc2⟩

theorem ceilLogxy_libmLog_125_5 : ceilLogxy libmLog 125 5 = some 4 := by
  refine ceilLogxy_eval libmLog 125 5 _ _ 1 6755399441055745 4 rfl rfl (by norm_num)
    ?_ ?_ ?_ ?_ ?_
  · norm_num
  · norm_num
  · rw [abs_lt]; constructor <;> norm_num
  · norm_num
  · norm_num

theorem ceilLogxy_libmLog_100_10 : ceilLogxy libmLog 100 10 = some 2 := by
  refine ceilLogxy_eval libmLog 100 10 _ _ 1 4503599627370496 2 rfl rfl (by norm_num)
    ?_ ?_ ?_ ?_ ?_
  · norm_num
  · norm_num
  · rw [abs_lt]; constructor <;> norm_num
  · norm_num
  · norm_num

theorem ceilLogxy_libmLog_101_10 : ceilLogxy libmLog 101 10 = some 3 := by
  refine ceilLogxy_eval libmLog 101 10 _ _ 1 4513330496049115 3 rfl rfl (by norm_num)
    ?_ ?_ ?_ ?_ ?_
  · norm_num
  · norm_num
  · rw [abs_lt]; constructor <;> norm_num
  · norm_num
  · norm_num

theorem ceilLogxy_libmLog_3_2 : ceilLogxy libmLog 3 2 = some 2 := by
  refine ceilLogxy_eval libmLog 3 2 _ _ 0 7138036527644009 2 rfl rfl (by norm_num)
    ?_ ?_ ?_ ?_ ?_
  · norm_num
  · norm_num
  · rw [abs_lt]; constructor <;> norm_num
  · norm_num
  · norm_num

theorem ceilLogxy_libmLog_4_2 : ceilLogxy libmLog 4 2 = some 2 := by
  refine ceilLogxy_eval libmLog 4 2 _ _ 1 4503599627370496 2 rfl rfl (by norm_num)
    ?_ ?_ ?_ ?_ ?_
  · norm_num
  · norm_num
  · rw [abs_lt]; constructor <;> norm_num
  · norm_num
  · norm_num

theorem ceilLogxy_libmLog_pow29_2 : ceilLogxy libmLog 536870912 2 = some 30 := by
  refine ceilLogxy_eval libmLog 536870912 2 _ _ 4 8162774324609025 30 rfl rfl (by norm_num)
    ?_ ?_ ?_ ?_ ?_
  · norm_num
  · norm_num
  · rw [abs_lt]; constructor <;> norm_num
  · norm_num
  · norm_num

/-! ## Claims on CalculateOptimalTreeInfo -/

/-- C4 (the code at the failing input): for ObjectCount 125 and occupation 5
the least h with 5^h >= 125 is 3, but the quotient of the doubles log(125) and
log(5) rounds to 3 + 2^-51, its ceiling is 4, and CalculateOptimalTreeInfo
builds 4 levels, (1,1), (1,5), (5,25) and (25,125): one level more than the
minimal tree, with a root that has a single child. Likewise the height
computed for 2^29 objects at occupation 2 is 30, not 29. -/
theorem C4_height_overshoot :
    scenarioA125.objectCount = 125 ∧
    ((125 : Int) ≤ 5 ^ 3 ∧ ∀ h : Nat, (125 : Int) ≤ 5 ^ h → 3 ≤ h) ∧
    logxy libmLog 125 5 = Double.finite (3 + 1 / 2 ^ 51) ∧
    ceilLogxy libmLog 125 5 = some 4 ∧
    ((536870912 : Int) = 2 ^ 29 ∧ ceilLogxy libmLog 536870912 2 = some 30) ∧
    ∀ junk : stOptimalLevelInfo, ∃ r1,
      CalculateOptimalTreeInfo libmLog junk 5 scenarioA125 = some r1 ∧
        r1.optimalHeight = 4 ∧
        r1.optimalLevelData = some [⟨1, 1⟩, ⟨1, 5⟩, ⟨5, 25⟩, ⟨25, 125⟩] := by
  refine ⟨rfl, ⟨by norm_num, ?_⟩, ?_, ceilLogxy_libmLog_125_5,
    ⟨by norm_num, ceilLogxy_libmLog_pow29_2⟩, ?_⟩
  · intro h hh
    by_contra hlt
    have h2 : h ≤ 2 := by omega
    have : (5 : Int) ^ h ≤ 5 ^ 2 := pow_le_pow_right₀ (by norm_num) h2
    omega
  · show Double.divIEEE (libmLog 125) (libmLog 5) = _
    have e1 : libmLog 125 = Double.finite (5436197987035623 / 1125899906842624) := rfl
    have e2 : libmLog 5 = Double.finite (7248263982714163 / 4503599627370496) := rfl
    rw [e1, e2]
    unfold Double.divIEEE
    simp only [if_neg (show (7248263982714163 / 4503599627370496 : ℚ) ≠ 0 by norm_num)]
    congr 1
    rw [Double.roundNearestEven_of_pos _ (by norm_num),
      Double.roundPos_eq_of _ 1 6755399441055745 (by norm_num) (by norm_num)
        (by rw [abs_lt]; constructor <;> norm_num)]
    norm_num
  · intro junk
    refine ⟨_, CalculateOptimalTreeInfo_eq libmLog junk 5 scenarioA125 4 (by decide)
      (by decide) ceilLogxy_libmLog_125_5, rfl, ?_⟩
    show some (optimalChain 5 4 125) = _
    simp [optimalChain, ceilStep_eq_ediv]

theorem wellFormed_scenarioC : WellFormed scenarioC :=
  ⟨by decide, by intro O h; cases h; decide⟩

theorem callerGuarantees_scenarioC : CallerGuarantees scenarioC := by
  refine ⟨by decide, ?_, by decide⟩
  intro l hl
  simp only [scenarioC, List.mem_cons, List.mem_singleton, List.not_mem_nil, or_false] at hl
  rcases hl with rfl | rfl <;> exact ⟨by decide, by decide⟩

theorem wellFormed_scenarioG : WellFormed scenarioG :=
  ⟨by decide, by intro O h; cases h⟩

theorem callerGuarantees_scenarioG : CallerGuarantees scenarioG := by
  refine ⟨by decide, ?_, by decide⟩
  intro l hl
  simp only [scenarioG, List.mem_cons, List.mem_singleton, List.not_mem_nil, or_false] at hl
  rcases hl with rfl | rfl | rfl <;> exact ⟨by decide, by decide⟩

theorem fatFactorExpr_isFinite (a h n m : Int) :
    (fatFactorExpr a h n m).isFinite = true ↔ n * wrap32 (wrap32 (m - h) - 1) ≠ 0 := by
  unfold fatFactorExpr Double.ofInt
  simp only [Double.finite_sub, Double.finite_mul, Double.finite_div]
  have hc : ((n : ℚ) * ((wrap32 (wrap32 (m - h) - 1) : Int) : ℚ) = 0)
      ↔ n * wrap32 (wrap32 (m - h) - 1) = 0 := by
    constructor <;> intro h0 <;> exact_mod_cast h0
  by_cases h0 : n * wrap32 (wrap32 (m - h) - 1) = 0
  · rw [if_pos (hc.2 h0)]; simp [Double.isFinite, h0]
  · rw [if_neg (fun hq => h0 (hc.1 hq))]; simp [Double.isFinite, h0]

theorem bloatFactorExpr_isFinite (a oh n m : Int) :
    (bloatFactorExpr a oh n m).isFinite = true ↔ n * m - wrap32 (oh + 1) ≠ 0 := by
  unfold bloatFactorExpr Double.ofInt
  simp only [Double.finite_sub, Double.finite_mul, Double.finite_div]
  have hc : ((n : ℚ) * (m : ℚ) - ((wrap32 (oh + 1) : Int) : ℚ) = 0)
      ↔ n * m - wrap32 (oh + 1) = 0 := by
    constructor <;> intro h0 <;> exact_mod_cast h0
  by_cases h0 : n * m - wrap32 (oh + 1) = 0
  · rw [if_pos (hc.2 h0)]; simp [Double.isFinite, h0]
  · rw [if_neg (fun hq => h0 (hc.1 hq))]; simp [Double.isFinite, h0]

/-! ## Claims on the divisors -/

/-- C5 (as stated, refuted): scenario C satisfies the documented caller
guarantees and has an optimal baseline, yet its BloatFactor divisor
ObjectCount * optimalTotalNodes - (OptimalHeight + 1) is 2 * 1 - 2 = 0 and
Calculate stores a non finite BloatFactor. Scenario G satisfies the guarantees
too (3 < 4294967300 - 1), but the int numNodes holds its node total as 4, the
FatFactor divisor is 5 * (4 - 3 - 1) = 0, and Calculate stores a non finite
FatFactor. -/
theorem C5_counterexample :
    (WellFormed scenarioC ∧ CallerGuarantees scenarioC ∧
      scenarioC.optimalLevelData = some [⟨1, 2⟩] ∧
      scenarioC.objectCount * optimalTotalNodes [⟨1, 2⟩] - (scenarioC.optimalHeight + 1) = 0 ∧
      ∃ r1, Calculate scenarioC = some r1 ∧ r1.bloatFactor = Double.nonFinite) ∧
    (WellFormed scenarioG ∧ CallerGuarantees scenarioG ∧
      totalNodes scenarioG = 4294967300 ∧ numNodes scenarioG = 4 ∧
      ∃ r1, Calculate scenarioG = some r1 ∧ r1.fatFactor = Double.nonFinite) := by
  constructor
  · refine ⟨wellFormed_scenarioC, callerGuarantees_scenarioC, rfl, by decide,
      _, Calculate_eq scenarioC wellFormed_scenarioC, ?_⟩
    show bloatFactorExpr _ _ _ _ = _
    have h1 : numIntersections scenarioC = 0 := by decide
    have h2 : optNumNodes [⟨1, 2⟩] = 1 := by decide
    have h3 : scenarioC.objectCount = 2 := rfl
    have h4 : scenarioC.optimalHeight = 1 := rfl
    have h5 : wrap32 ((1 : Int) + 1) = 2 := by decide
    rw [h1, h2, h3, h4]
    unfold bloatFactorExpr Double.ofInt
    rw [h5]
    simp only [Double.finite_sub, Double.finite_mul, Double.finite_div]
    norm_num
  · have hN : totalNodes scenarioG = 4294967300 := by decide
    have hnN : numNodes scenarioG = 4 := by
      unfold numNodes; rw [hN]; decide
    refine ⟨wellFormed_scenarioG, callerGuarantees_scenarioG, hN, hnN,
      _, Calculate_eq scenarioG wellFormed_scenarioG, ?_⟩
    show fatFactorExpr _ _ _ _ = _
    have h1 : numIntersections scenarioG = 0 := by decide
    have h3 : scenarioG.objectCount = 5 := rfl
    have h4 : scenarioG.height = 3 := rfl
    have h5 : wrap32 ((3 : Int) + 1) = 4 := by decide
    have h6 : wrap32 (wrap32 ((4 : Int) - 3) - 1) = 0 := by decide
    rw [h1, hnN, h3, h4]
    unfold fatFactorExpr Double.ofInt
    rw [h5, h6]
    simp only [Double.finite_sub, Double.finite_mul, Double.finite_div]
    norm_num

/-- C5 (amended): on every well-formed report that satisfies the documented
caller guarantees and whose node total is inside the range of a 32-bit int,
Calculate returns, every per-level divisor and the global FatFactor divisor
ObjectCount * (totalNodes - Height - 1) are non-zero, so every local FatFactor
and the global FatFactor are finite; when a baseline is present (its node
total and OptimalHeight + 1 inside the range of a 32-bit int) the BloatFactor
is finite exactly when ObjectCount * optimalTotalNodes differs from
OptimalHeight + 1. -/
theorem C5_divisors (r : stTreeInformation) (hwf : WellFormed r)
    (hg : CallerGuarantees r) (hN : IsInt32 (totalNodes r)) :
    (∀ l ∈ r.levelData, l.ObjectCount ≠ 0 ∧ l.NodeCount ≠ 0) ∧
    r.objectCount * (totalNodes r - r.height - 1) ≠ 0 ∧
    ∃ r1, Calculate r = some r1 ∧
      (∀ l ∈ r1.levelData, l.FatFactor.isFinite = true) ∧
      r1.fatFactor.isFinite = true ∧
      ∀ O, r.optimalLevelData = some O → IsInt32 (optimalTotalNodes O) →
        IsInt32 (r.optimalHeight + 1) →
        (r1.bloatFactor.isFinite = true ↔
          r.objectCount * optimalTotalNodes O - (r.optimalHeight + 1) ≠ 0) := by
  obtain ⟨hn, hlv, hh⟩ := hg
  have hh0 : 0 ≤ r.height := by
    have := hwf.1
    unfold LevelsSized at this
    omega
  have hdiv : r.objectCount * (totalNodes r - r.height - 1) ≠ 0 :=
    mul_ne_zero (by omega) (by omega)
  refine ⟨fun l hl => ⟨by have := (hlv l hl).2; omega, by have := (hlv l hl).1; omega⟩,
    hdiv, _, Calculate_eq r hwf, ?_, ?_, ?_⟩
  · intro l hl
    simp only [List.mem_map] at hl
    obtain ⟨l0, hl0, rfl⟩ := hl
    have h1 : l0.ObjectCount ≠ 0 := by have := (hlv l0 hl0).2; omega
    have h2 : l0.NodeCount ≠ 0 := by have := (hlv l0 hl0).1; omega
    exact localFatFactor_isFinite l0 h1 h2
  · show (fatFactorExpr _ _ _ _).isFinite = true
    rw [fatFactorExpr_isFinite]
    unfold IsInt32 at hN
    have e1 : numNodes r = totalNodes r := wrap32_of_isInt32 _ hN
    have e2 : wrap32 (totalNodes r - r.height) = totalNodes r - r.height :=
      wrap32_of_isInt32 _ ⟨by omega, by omega⟩
    have e3 : wrap32 (totalNodes r - r.height - 1) = totalNodes r - r.height - 1 :=
      wrap32_of_isInt32 _ ⟨by omega, by omega⟩
    rw [e1, e2, e3]
    exact hdiv
  · intro O hO hON hOH
    show (bloatFactorAfter r).isFinite = true ↔ _
    unfold bloatFactorAfter
    rw [hO]
    show (bloatFactorExpr _ _ _ (optNumNodes O)).isFinite = true ↔ _
    rw [bloatFactorExpr_isFinite]
    unfold optNumNodes
    rw [wrap32_of_isInt32 _ hON, wrap32_of_isInt32 _ hOH]

/-- Witness of the amended C5 on scenario C. -/
theorem C5_divisors_witness :
    (∀ l ∈ scenarioC.levelData, l.ObjectCount ≠ 0 ∧ l.NodeCount ≠ 0) ∧
    scenarioC.objectCount * (totalNodes scenarioC - scenarioC.height - 1) ≠ 0 ∧
    ∃ r1, Calculate scenarioC = some r1 ∧
      (∀ l ∈ r1.levelData, l.FatFactor.isFinite = true) ∧
      r1.fatFactor.isFinite = true ∧
      ∀ O, scenarioC.optimalLevelData = some O → IsInt32 (optimalTotalNodes O) →
        IsInt32 (scenarioC.optimalHeight + 1) →
        (r1.bloatFactor.isFinite = true ↔
          scenarioC.objectCount * optimalTotalNodes O - (scenarioC.optimalHeight + 1) ≠ 0) :=
  C5_divisors scenarioC wellFormed_scenarioC callerGuarantees_scenarioC (by decide)

/-! ## Monotonicity of the simulated optimal tree -/

theorem IsLog.nonneg {L : Int → ℚ} {N : Int} (h1 : L 1 = 0)
    (hm : ∀ x y, 1 ≤ x → x ≤ y → y ≤ N → L x ≤ L y) (x : Int) (hx : 1 ≤ x) (hN : x ≤ N) :
    0 ≤ L x := by
  have := hm 1 x (le_refl 1) hx hN
  rw [h1] at this
  exact this

theorem ceilLogxy_mono (log : Int → Double) (N : Int) (hlog : IsLog log N) (k n1 n2 : Int)
    (hk : 2 ≤ k) (hkN : k ≤ N) (h1 : 1 ≤ n1) (h12 : n1 ≤ n2) (h2N : n2 ≤ N) :
    ∃ oh1 oh2 : Int,
      ceilLogxy log n1 k = some oh1 ∧ ceilLogxy log n2 k = some oh2 ∧ oh1 ≤ oh2 := by
  obtain ⟨L, hL, hL1, hLm, hLp⟩ := hlog
  have hb0 : 0 < L k := hLp k hk hkN
  refine ⟨_, _,
    ceilLogxy_finite log n1 k _ _ (hL n1 h1 (by omega)) (hL k (by omega) hkN) (ne_of_gt hb0),
    ceilLogxy_finite log n2 k _ _ (hL n2 (by omega) h2N) (hL k (by omega) hkN)
      (ne_of_gt hb0), ?_⟩
  apply Int.ceil_mono
  apply Double.roundNearestEven_mono
  · exact div_nonneg (IsLog.nonneg hL1 hLm n1 h1 (by omega)) (le_of_lt hb0)
  · exact div_le_div_of_nonneg_right (hLm n1 n2 h1 h12 h2N) (le_of_lt hb0)

theorem CalculateOptimalTreeInfo_of_isLog (log : Int → Double) (N : Int)
    (hlog : IsLog log N) (junk : stOptimalLevelInfo) (k : Int) (r : stTreeInformation)
    (hk : 2 ≤ k) (hkN : k ≤ N) (hn : 2 ≤ r.objectCount) (hnN : r.objectCount ≤ N) :
    ∃ h : Nat, 1 ≤ h ∧ ceilLogxy log r.objectCount k = some (h : Int) ∧
      CalculateOptimalTreeInfo log junk k r = some (Invalidate { r with
        optimalHeight := (h : Int)
        optimalLevelData := some (optimalChain k h r.objectCount) }) := by
  obtain ⟨L, hL, _, _, hLp⟩ := hlog
  obtain ⟨h, h1, _, h3, h4⟩ := CalculateOptimalTreeInfo_of_pos log junk k r _ _ (by omega)
    (hL r.objectCount (by omega) hnN) (hL k (by omega) hkN) (hLp _ hn hnN) (hLp k hk hkN)
  exact ⟨h, h1, h3, h4⟩

/-- C6: for every occupation k >= 2 and object counts 1 <= n1 <= n2, the
OptimalHeight that CalculateOptimalTreeInfo(k) computes (its first
assignment, the ceiling of the rounded quotient of the two logarithms) for n2
is at least the one it computes for n1, whenever the library log, on the ints
1 .. N that hold k and n2, is finite, 0 at 1, non-decreasing and positive from
2 on; for an object count of at least 2 the call returns with that
OptimalHeight. -/
theorem C6_height_monotone (log : Int → Double) (N k n1 n2 : Int) (hlog : IsLog log N)
    (hk : 2 ≤ k) (hkN : k ≤ N) (h1 : 1 ≤ n1) (h12 : n1 ≤ n2) (h2N : n2 ≤ N) :
    ∃ oh1 oh2 : Int,
      ceilLogxy log n1 k = some oh1 ∧ ceilLogxy log n2 k = some oh2 ∧ oh1 ≤ oh2 ∧
      (∀ (junk : stOptimalLevelInfo) (r : stTreeInformation),
        r.objectCount = n1 → 2 ≤ n1 →
        ∃ r1, CalculateOptimalTreeInfo log junk k r = some r1 ∧ r1.optimalHeight = oh1) ∧
      (∀ (junk : stOptimalLevelInfo) (r : stTreeInformation),
        r.objectCount = n2 → 2 ≤ n2 →
        ∃ r1, CalculateOptimalTreeInfo log junk k r = some r1 ∧ r1.optimalHeight = oh2) := by
  obtain ⟨oh1, oh2, e1, e2, hle⟩ := ceilLogxy_mono log N hlog k n1 n2 hk hkN h1 h12 h2N
  refine ⟨oh1, oh2, e1, e2, hle, ?_, ?_⟩
  · intro junk r hr hn
    subst hr
    obtain ⟨h, _, hc, hr1⟩ :=
      CalculateOptimalTreeInfo_of_isLog log N hlog junk k r hk hkN hn (by omega)
    rw [e1] at hc
    refine ⟨_, hr1, ?_⟩
    show (h : Int) = oh1
    exact (Option.some.inj hc).symm
  · intro junk r hr hn
    subst hr
    obtain ⟨h, _, hc, hr1⟩ :=
      CalculateOptimalTreeInfo_of_isLog log N hlog junk k r hk hkN hn h2N
    rw [e2] at hc
    refine ⟨_, hr1, ?_⟩
    show (h : Int) = oh2
    exact (Option.some.inj hc).symm

/-- Witness of C6: occupation 2, object counts 3 and 4, and the doubles that
the C library returns for the logarithms of 1 to 4. -/
theorem C6_height_monotone_witness :
    ∃ oh1 oh2 : Int,
      ceilLogxy libmLog 3 2 = some oh1 ∧ ceilLogxy libmLog 4 2 = some oh2 ∧
      oh1 ≤ oh2 ∧
      (∀ (junk : stOptimalLevelInfo) (r : stTreeInformation),
        r.objectCount = 3 → (2 : Int) ≤ 3 →
        ∃ r1, CalculateOptimalTreeInfo libmLog junk 2 r = some r1 ∧
          r1.optimalHeight = oh1) ∧
      (∀ (junk : stOptimalLevelInfo) (r : stTreeInformation),
        r.objectCount = 4 → (2 : Int) ≤ 4 →
        ∃ r1, CalculateOptimalTreeInfo libmLog junk 2 r = some r1 ∧
          r1.optimalHeight = oh2) :=
  C6_height_monotone libmLog 4 2 3 4 isLog_libmLog (by decide) (by decide) (by decide)
    (by decide) (by decide)

/-- C7 (as stated, refuted): at occupation 10, with the doubles that the C
library returns for log(10), log(100) and log(101), the tree simulated for 100
objects has 10 nodes at level 1 (levels (1,10), (10,100)), while the tree
simulated for 101 objects has 2 nodes at level 1 (levels (1,2), (2,11),
(11,101)). -/
theorem C7_counterexample :
    (2 : Int) ≤ 10 ∧ (2 : Int) ≤ 100 ∧ (100 : Int) ≤ 101 ∧
    scenarioA.objectCount = 100 ∧ scenarioA101.objectCount = 101 ∧
    ((CalculateOptimalTreeInfo libmLog ⟨0, 0⟩ 10 scenarioA).bind (·.optimalLevelData))
      = some [⟨1, 10⟩, ⟨10, 100⟩] ∧
    ((CalculateOptimalTreeInfo libmLog ⟨0, 0⟩ 10 scenarioA101).bind (·.optimalLevelData))
      = some [⟨1, 2⟩, ⟨2, 11⟩, ⟨11, 101⟩] ∧
    ([⟨1, 2⟩, ⟨2, 11⟩, ⟨11, 101⟩] : List stOptimalLevelInfo)[1].NodeCount
      < ([⟨1, 10⟩, ⟨10, 100⟩] : List stOptimalLevelInfo)[1].NodeCount := by
  refine ⟨by decide, by decide, by decide, rfl, rfl, ?_, ?_, by decide⟩
  · rw [CalculateOptimalTreeInfo_eq libmLog _ 10 scenarioA 2 (by decide) (by decide)
      ceilLogxy_libmLog_100_10]
    show some (optimalChain 10 2 100) = _
    simp [optimalChain, ceilStep_eq_ediv]
  · rw [CalculateOptimalTreeInfo_eq libmLog _ 10 scenarioA101 3 (by decide) (by decide)
      ceilLogxy_libmLog_101_10]
    show some (optimalChain 10 3 101) = _
    simp [optimalChain, ceilStep_eq_ediv]

/-- C7 (amended): for every occupation k >= 2 and object counts
2 <= n1 <= n2, whenever the library log, on the ints 1 .. N that hold k and
n2, is finite, 0 at 1, non-decreasing and positive from 2 on, both simulations
return, the tree for n2 is at least as high, and for every j below the height
of the tree for n1, the level at distance j above the deepest level has at
least as many nodes in the tree for n2 as in the tree for n1. -/
theorem C7_nodeCount_monotone (log : Int → Double) (N : Int) (junk : stOptimalLevelInfo)
    (k : Int) (ra rb : stTreeInformation) (hlog : IsLog log N) (hk : 2 ≤ k) (hkN : k ≤ N)
    (ha : 2 ≤ ra.objectCount) (hab : ra.objectCount ≤ rb.objectCount)
    (hbN : rb.objectCount ≤ N) :
    ∃ (ra1 rb1 : stTreeInformation) (Oa Ob : List stOptimalLevelInfo),
      CalculateOptimalTreeInfo log junk k ra = some ra1 ∧
      CalculateOptimalTreeInfo log junk k rb = some rb1 ∧
      ra1.optimalLevelData = some Oa ∧ rb1.optimalLevelData = some Ob ∧
      (Oa.length : Int) = ra1.optimalHeight ∧ (Ob.length : Int) = rb1.optimalHeight ∧
      Oa.length ≤ Ob.length ∧
      ∀ j : Nat, j < Oa.length →
        ∃ la lb, Oa[Oa.length - 1 - j]? = some la ∧ Ob[Ob.length - 1 - j]? = some lb ∧
          la.NodeCount ≤ lb.NodeCount := by
  obtain ⟨ha1, _, hca, hra⟩ :=
    CalculateOptimalTreeInfo_of_isLog log N hlog junk k ra hk hkN ha (by omega)
  obtain ⟨hb1, _, hcb, hrb⟩ :=
    CalculateOptimalTreeInfo_of_isLog log N hlog junk k rb hk hkN (by omega) hbN
  obtain ⟨oh1, oh2, e1, e2, hle0⟩ :=
    ceilLogxy_mono log N hlog k ra.objectCount rb.objectCount hk hkN (by omega) hab hbN
  have hle : ha1 ≤ hb1 := by
    rw [e1] at hca
    rw [e2] at hcb
    have := Option.some.inj hca
    have := Option.some.inj hcb
    omega
  refine ⟨_, _, _, _, hra, hrb, rfl, rfl, ?_, ?_, ?_, ?_⟩
  · rw [optimalChain_length]; rfl
  · rw [optimalChain_length]; rfl
  · rw [optimalChain_length, optimalChain_length]; exact hle
  · intro j hj
    rw [optimalChain_length] at hj
    refine ⟨⟨(ceilStep k)^[j + 1] ra.objectCount, (ceilStep k)^[j] ra.objectCount⟩,
      ⟨(ceilStep k)^[j + 1] rb.objectCount, (ceilStep k)^[j] rb.objectCount⟩, ?_, ?_, ?_⟩
    · rw [optimalChain_length]; exact optimalChain_fromLeaves k _ _ j hj
    · rw [optimalChain_length]; exact optimalChain_fromLeaves k _ _ j (by omega)
    · exact (ceilStep_mono k (by omega)).iterate (j + 1) hab

/-- Witness of the amended C7: occupation 2, object counts 3 and 4, and the
doubles that the C library returns for the logarithms of 1 to 4. -/
theorem C7_nodeCount_monotone_witness :
    ∃ (ra1 rb1 : stTreeInformation) (Oa Ob : List stOptimalLevelInfo),
      CalculateOptimalTreeInfo libmLog ⟨0, 0⟩ 2 scenarioA3 = some ra1 ∧
      CalculateOptimalTreeInfo libmLog ⟨0, 0⟩ 2 scenarioA4 = some rb1 ∧
      ra1.optimalLevelData = some Oa ∧ rb1.optimalLevelData = some Ob ∧
      (Oa.length : Int) = ra1.optimalHeight ∧ (Ob.length : Int) = rb1.optimalHeight ∧
      Oa.length ≤ Ob.length ∧
      ∀ j : Nat, j < Oa.length →
        ∃ la lb, Oa[Oa.length - 1 - j]? = some la ∧ Ob[Ob.length - 1 - j]? = some lb ∧
          la.NodeCount ≤ lb.NodeCount :=
  C7_nodeCount_monotone libmLog 4 ⟨0, 0⟩ 2 scenarioA3 scenarioA4 isLog_libmLog
    (by decide) (by decide) (by decide) (by decide) (by decide)

/-! ## The readiness flag -/

theorem Calculate_ready (r r1 : stTreeInformation) (h : Calculate r = some r1) :
    r1.ready = true := by
  unfold Calculate at h
  simp only [Option.bind_eq_bind, Option.bind_eq_some, Option.pure_def] at h
  obtain ⟨_, _, _, _, h⟩ := h
  split at h
  · simp only [Option.bind_eq_some, Option.map_eq_some', Option.some.injEq] at h
    obtain ⟨_, _, rfl⟩ := h
    rfl
  · simp only [Option.some_bind, Option.some.injEq] at h
    subst h
    rfl

theorem ResetData_ready (r r1 : stTreeInformation) (h : ResetData r = some r1) :
    r1.ready = r.ready := by
  unfold ResetData at h
  split at h
  · cases h; rfl
  · cases h

theorem construct_ready (base : stTreeInformation) (junk : stLevelInfo) (height n : Int)
    (r1 : stTreeInformation) (h : construct base junk height n = some r1) :
    r1.ready = false := by
  unfold construct at h
  split at h
  · cases h
  · simp only [Option.map_eq_some'] at h
    obtain ⟨_, _, rfl⟩ := h
    rfl

theorem SetOptimalTreeInfo_ready (junk : stOptimalLevelInfo) (height : Int)
    (oc nc : List Int) (r r1 : stTreeInformation)
    (h : SetOptimalTreeInfo junk height oc nc r = some r1) : r1.ready = false := by
  unfold SetOptimalTreeInfo at h
  split at h
  · cases h
  · simp only [Option.map_eq_some'] at h
    obtain ⟨_, _, rfl⟩ := h
    rfl

theorem CalculateOptimalTreeInfo_ready (log : Int → Double) (junk : stOptimalLevelInfo)
    (k : Int) (r r1 : stTreeInformation)
    (h : CalculateOptimalTreeInfo log junk k r = some r1) :
    r1.ready = false := by
  unfold CalculateOptimalTreeInfo at h
  simp only [Option.bind_eq_some] at h
  obtain ⟨oh, _, h⟩ := h
  split at h
  · cases h
  · simp only [Option.bind_eq_some, Option.map_eq_some'] at h
    obtain ⟨_, _, _, _, _, _, rfl⟩ := h
    rfl

theorem Clone_ready (base : stTreeInformation) (junk : stLevelInfo)
    (r r1 : stTreeInformation) (h : Clone base junk r = some r1) : r1.ready = r.ready := by
  unfold Clone at h
  simp only [Option.bind_eq_some] at h
  obtain ⟨c, _, h⟩ := h
  split at h
  · cases h
  · split at h
    · cases h; rfl
    · split at h
      · cases h
      · cases h; rfl

theorem ResetData_eq (r : stTreeInformation) (hL : LevelsSized r) :
    ResetData r = some { r with
      levelData := List.replicate r.height.toNat zeroLevel
      objectSizeSum := 0
      objectSizeCount := 0 } := by
  unfold LevelsSized at hL
  have hlen : r.height.toNat = r.levelData.length := by omega
  unfold ResetData
  rw [if_pos ⟨by omega, by omega⟩, hlen, List.drop_length, List.append_nil]

theorem construct_eq (base : stTreeInformation) (junk : stLevelInfo) (height n : Int)
    (hh : 0 ≤ height) :
    construct base junk height n = some { base with
      height := height
      minHeight := height
      objectCount := n
      objectSizeSum := 0
      objectSizeCount := 0
      ready := false
      levelData := List.replicate height.toNat zeroLevel
      optimalLevelData := none } := by
  unfold construct
  rw [if_neg (by omega)]
  simp only []
  rw [ResetData_eq _ (by simp [LevelsSized, Int.toNat_of_nonneg hh])]
  rfl

theorem foldlM_setOptimal (oc nc : List Int) (init : List stOptimalLevelInfo) (n : Nat)
    (hi : n ≤ init.length) (ho : n ≤ oc.length) (hc : n ≤ nc.length) :
    (List.range n).foldlM
      (fun (O : List stOptimalLevelInfo) (i : Nat) =>
        (nc[i]?).bind fun a => (oc[i]?).bind fun b => writeAt O (i : Int) ⟨a, b⟩)
      init
    = some (List.zipWith (fun a b => (⟨a, b⟩ : stOptimalLevelInfo)) (nc.take n) (oc.take n)
        ++ init.drop n) := by
  induction n with
  | zero => simp
  | succ n ih =>
    have h1 : n < init.length := hi
    have h2 : n < oc.length := ho
    have h3 : n < nc.length := hc
    rw [List.range_succ, List.foldlM_append, ih (Nat.le_of_lt h1) (Nat.le_of_lt h2)
      (Nat.le_of_lt h3)]
    have hg2 : oc[n]? = some oc[n] := List.getElem?_eq_getElem h2
    have hg3 : nc[n]? = some nc[n] := List.getElem?_eq_getElem h3
    have hz : (List.zipWith (fun a b => (⟨a, b⟩ : stOptimalLevelInfo))
        (nc.take n) (oc.take n)).length = n := by
      simp [Nat.min_eq_left (Nat.le_of_lt h2), Nat.min_eq_left (Nat.le_of_lt h3)]
    have hd : init.drop n = init[n] :: init.drop (n + 1) := List.drop_eq_getElem_cons h1
    simp only [List.foldlM_cons, List.foldlM_nil, Option.bind_eq_bind, Option.some_bind, hg2, hg3]
    unfold writeAt
    rw [if_pos ⟨by omega, by simp [hz]; omega⟩, Int.toNat_ofNat, hd,
      List.set_append_right _ _ (by rw [hz]), hz]
    have hl : (nc.take n).length = (oc.take n).length := by
      simp [Nat.min_eq_left (Nat.le_of_lt h2), Nat.min_eq_left (Nat.le_of_lt h3)]
    simp only [Nat.sub_self, List.set_cons_zero, List.take_succ, hg2, hg3, Option.toList_some,
      Option.some_bind, pure]
    rw [List.zipWith_append _ _ _ _ _ hl]
    simp

theorem SetOptimalTreeInfo_eq (junk : stOptimalLevelInfo) (height : Int) (oc nc : List Int)
    (r : stTreeInformation) (hh : 0 ≤ height) (ho : height.toNat ≤ oc.length)
    (hc : height.toNat ≤ nc.length) :
    SetOptimalTreeInfo junk height oc nc r = some { r with
      optimalHeight := height
      ready := false
      optimalLevelData := some (List.zipWith (fun a b => (⟨a, b⟩ : stOptimalLevelInfo))
        (nc.take height.toNat) (oc.take height.toNat)) } := by
  unfold SetOptimalTreeInfo
  rw [if_neg (by omega), foldlM_setOptimal oc nc _ _ (by simp) ho hc]
  simp [Invalidate]

theorem Op.apply_ready (op : Op) (r r1 : stTreeInformation) (h : op.apply r = some r1) :
    (op = Op.calculate ∧ r1.ready = true) ∨
    (op.invalidates = true ∧ r1.ready = false) ∨
    (op ≠ Op.calculate ∧ op.invalidates = false ∧ r1.ready = r.ready) := by
  cases op with
  | resetData => exact Or.inr (Or.inr ⟨by simp, rfl, ResetData_ready r r1 h⟩)
  | calculate => exact Or.inl ⟨rfl, Calculate_ready r r1 h⟩
  | invalidate =>
    simp only [Op.apply, Option.some.injEq] at h
    subst h
    exact Or.inr (Or.inl ⟨rfl, rfl⟩)
  | setOptimalTreeInfo junk hgt oc nc =>
    exact Or.inr (Or.inl ⟨rfl, SetOptimalTreeInfo_ready junk hgt oc nc r r1 h⟩)
  | calculateOptimalTreeInfo log junk k =>
    exact Or.inr (Or.inl ⟨rfl, CalculateOptimalTreeInfo_ready log junk k r r1 h⟩)
  | clone base junk => exact Or.inr (Or.inr ⟨by simp, rfl, Clone_ready base junk r r1 h⟩)
  | writeLevel i nc oc x =>
    simp only [Op.apply] at h
    split at h
    · simp only [Option.bind_eq_some, Option.map_eq_some'] at h
      obtain ⟨_, _, _, _, rfl⟩ := h
      exact Or.inr (Or.inr ⟨by simp, rfl, rfl⟩)
    · cases h

theorem runOps_append (r : stTreeInformation) (ops : List Op) (op : Op) :
    runOps r (ops ++ [op]) = (runOps r ops).bind fun r1 => op.apply r1 := by
  induction ops generalizing r with
  | nil => simp [runOps]
  | cons o ops ih =>
    simp only [List.cons_append, runOps]
    cases o.apply r with
    | none => rfl
    | some r1 => simp [ih]

theorem runOps_ready (r0 : stTreeInformation) (h0 : r0.ready = false) (ops : List Op) :
    ∀ r, runOps r0 ops = some r → r.ready = true →
      ∃ pre post, ops = pre ++ Op.calculate :: post ∧ ∀ o ∈ post, o.invalidates = false := by
  induction ops using List.reverseRecOn with
  | nil =>
    intro r h hr
    simp only [runOps, Option.some.injEq] at h
    subst h
    rw [h0] at hr
    cases hr
  | append_singleton ops op ih =>
    intro r h hr
    rw [runOps_append] at h
    simp only [Option.bind_eq_some] at h
    obtain ⟨rm, hrm, hop⟩ := h
    rcases Op.apply_ready op rm r hop with ⟨hc, _⟩ | ⟨_, hf⟩ | ⟨_, hni, hkeep⟩
    · exact ⟨ops, [], by rw [hc], by simp⟩
    · rw [hf] at hr; cases hr
    · obtain ⟨pre, post, hops, hpost⟩ := ih rm hrm (by rw [← hkeep]; exact hr)
      refine ⟨pre, post ++ [op], by rw [hops]; simp, ?_⟩
      intro o ho
      rcases List.mem_append.1 ho with h1 | h1
      · exact hpost o h1
      · rw [List.mem_singleton.1 h1]; exact hni

/-! ## Claims on the readiness protocol and on the frame of Calculate -/

/-- C8: Calculate always leaves Ready = true (and returns on every well-formed
report); the constructor, Invalidate, SetOptimalTreeInfo and
CalculateOptimalTreeInfo always leave Ready = false (and return on their
domains; CalculateOptimalTreeInfo for every library log that, on the ints
1 .. N that hold its two arguments, is finite, 0 at 1, non-decreasing and
positive from 2 on); hence after
any sequence of operations on a constructed report, Ready is true only if the
sequence holds a Calculate after which no Invalidate, SetOptimalTreeInfo or
CalculateOptimalTreeInfo occurs. -/
theorem C8_readiness_protocol :
    (∀ r r1, Calculate r = some r1 → r1.ready = true) ∧
    (∀ r, WellFormed r → ∃ r1, Calculate r = some r1 ∧ r1.ready = true) ∧
    (∀ base junk height n r1, construct base junk height n = some r1 → r1.ready = false) ∧
    (∀ base junk height n, 0 ≤ height →
      ∃ r1, construct base junk height n = some r1 ∧ r1.ready = false) ∧
    (∀ r, (Invalidate r).ready = false) ∧
    (∀ junk height oc nc r r1,
      SetOptimalTreeInfo junk height oc nc r = some r1 → r1.ready = false) ∧
    (∀ junk height (oc nc : List Int) r, 0 ≤ height → height.toNat ≤ oc.length →
      height.toNat ≤ nc.length →
      ∃ r1, SetOptimalTreeInfo junk height oc nc r = some r1 ∧ r1.ready = false) ∧
    (∀ log junk k r r1,
      CalculateOptimalTreeInfo log junk k r = some r1 → r1.ready = false) ∧
    (∀ log N junk k (r : stTreeInformation), IsLog log N →
      2 ≤ r.objectCount → r.objectCount ≤ N → 2 ≤ k → k ≤ N →
      ∃ r1, CalculateOptimalTreeInfo log junk k r = some r1 ∧ r1.ready = false) ∧
    (∀ base junk height n r0 ops r, construct base junk height n = some r0 →
      runOps r0 ops = some r → r.ready = true →
      ∃ pre post, ops = pre ++ Op.calculate :: post ∧ ∀ o ∈ post, o.invalidates = false) := by
  refine ⟨Calculate_ready, ?_, construct_ready, ?_, fun _ => rfl, SetOptimalTreeInfo_ready, ?_,
    CalculateOptimalTreeInfo_ready, ?_, ?_⟩
  · intro r hwf
    exact ⟨_, Calculate_eq r hwf, rfl⟩
  · intro base junk height n hh
    exact ⟨_, construct_eq base junk height n hh, rfl⟩
  · intro junk height oc nc r hh ho hc
    exact ⟨_, SetOptimalTreeInfo_eq junk height oc nc r hh ho hc, rfl⟩
  · intro log N junk k r hlog hn hnN hk hkN
    obtain ⟨h, _, _, hr1⟩ :=
      CalculateOptimalTreeInfo_of_isLog log N hlog junk k r hk hkN hn hnN
    exact ⟨_, hr1, rfl⟩
  · intro base junk height n r0 ops r hc hrun hr
    exact runOps_ready r0 (construct_ready base junk height n r0 hc) ops r hrun hr

/-- Witness of C8: a report constructed with height 1, filled, calculated and
reset is ready, and the sequence holds a Calculate with no invalidating
operation after it. -/
theorem C8_readiness_protocol_witness :
    ∃ pre post,
      [Op.writeLevel 0 3 5 0, Op.calculate, Op.resetData] = pre ++ Op.calculate :: post ∧
        ∀ o ∈ post, o.invalidates = false :=
  C8_readiness_protocol.2.2.2.2.2.2.2.2.2 scenarioA zeroLevel 1 5
    { scenarioA with
      height := 1, minHeight := 1, objectCount := 5, levelData := [zeroLevel] }
    [Op.writeLevel 0 3 5 0, Op.calculate, Op.resetData]
    { scenarioA with
      height := 1, minHeight := 1, objectCount := 5, levelData := [zeroLevel]
      fatFactor := Double.finite (-2), ready := true }
    (by rw [construct_eq _ _ _ _ (by decide)]; rfl)
    (by
      simp only [runOps, Op.apply,
        dif_pos (show IsInt32 3 ∧ IsInt32 5 ∧ IsInt32 0 by decide)]
      simp [readAt, writeAt, Calculate_eq, WellFormed, LevelsSized, OptimalSized, ResetData_eq,
        zeroLevel, withLocalFatFactor, bloatFactorAfter, fatFactorExpr, numIntersections,
        numNodes, totalIntersections, totalNodes, wrap32, Double.ofInt, Double.finite_div,
        scenarioA]
      norm_num)
    rfl

/-- C9 (as stated, refuted): on scenario A, Calculate followed by ResetData
returns a report whose Ready flag is still true. -/
theorem C9_counterexample :
    ((Calculate scenarioA).bind ResetData).map (·.ready) = some true := by
  rw [Calculate_eq scenarioA wellFormed_scenarioA]
  simp only [Option.some_bind]
  rw [ResetData_eq _ (by simp [LevelsSized, scenarioA])]
  rfl

/-- C9 (amended): readiness is a two-state machine in which the operations
that change the optimal data, SetOptimalTreeInfo and CalculateOptimalTreeInfo,
leave the report Stale, Calculate leaves it Fresh and is the only operation
that turns a Stale report Fresh, and ResetData leaves Ready as it was (it
returns on every report with its levels sized). -/
theorem C9_readiness_states :
    (∀ r r1, ResetData r = some r1 → r1.ready = r.ready) ∧
    (∀ r, LevelsSized r → ∃ r1, ResetData r = some r1 ∧ r1.ready = r.ready) ∧
    (∀ junk height oc nc r r1,
      SetOptimalTreeInfo junk height oc nc r = some r1 → r1.ready = false) ∧
    (∀ log junk k r r1,
      CalculateOptimalTreeInfo log junk k r = some r1 → r1.ready = false) ∧
    (∀ r r1, Calculate r = some r1 → r1.ready = true) ∧
    (∀ (op : Op) r r1, op.apply r = some r1 → r.ready = false → r1.ready = true →
      op = Op.calculate) := by
  refine ⟨ResetData_ready, ?_, SetOptimalTreeInfo_ready, CalculateOptimalTreeInfo_ready,
    Calculate_ready, ?_⟩
  · intro r hL
    exact ⟨_, ResetData_eq r hL, rfl⟩
  · intro op r r1 h h0 h1
    rcases Op.apply_ready op r r1 h with ⟨hc, _⟩ | ⟨_, hf⟩ | ⟨_, _, hkeep⟩
    · exact hc
    · rw [hf] at h1; cases h1
    · rw [hkeep, h0] at h1; cases h1

/-- Witness of the amended C9: ResetData on the calculated scenario A keeps
Ready = true. -/
theorem C9_readiness_states_witness :
    ∃ r1, ResetData { scenarioA with ready := true } = some r1 ∧
      r1.ready = ({ scenarioA with ready := true } : stTreeInformation).ready :=
  C9_readiness_states.2.1 { scenarioA with ready := true } (by decide)

/-- C10: on every well-formed report Calculate returns a report with the same
Height, ObjectCount, MinHeight, object-size accumulators, OptimalHeight and
optimal levels, the same number of levels, and the same NodeCount,
ObjectCount and Intersections at every level. -/
theorem C10_calculate_frame (r : stTreeInformation) (hwf : WellFormed r) :
    ∃ r1, Calculate r = some r1 ∧
      r1.height = r.height ∧ r1.objectCount = r.objectCount ∧ r1.minHeight = r.minHeight ∧
      r1.objectSizeSum = r.objectSizeSum ∧ r1.objectSizeCount = r.objectSizeCount ∧
      r1.optimalHeight = r.optimalHeight ∧ r1.optimalLevelData = r.optimalLevelData ∧
      r1.levelData.length = r.levelData.length ∧
      (∀ (i : Nat) (l : stLevelInfo), r.levelData[i]? = some l →
        ∃ l1, r1.levelData[i]? = some l1 ∧ l1.NodeCount = l.NodeCount ∧
          l1.ObjectCount = l.ObjectCount ∧ l1.Intersections = l.Intersections) := by
  refine ⟨_, Calculate_eq r hwf, rfl, rfl, rfl, rfl, rfl, rfl, rfl, by simp, ?_⟩
  intro i l hl
  refine ⟨withLocalFatFactor l, ?_, rfl, rfl, rfl⟩
  simp only [List.getElem?_map, hl, Option.map_some']

/-- Witness of C10 on scenario B. -/
theorem C10_calculate_frame_witness :
    ∃ r1, Calculate scenarioB = some r1 ∧
      r1.height = scenarioB.height ∧ r1.objectCount = scenarioB.objectCount ∧
      r1.minHeight = scenarioB.minHeight ∧
      r1.objectSizeSum = scenarioB.objectSizeSum ∧
      r1.objectSizeCount = scenarioB.objectSizeCount ∧
      r1.optimalHeight = scenarioB.optimalHeight ∧
      r1.optimalLevelData = scenarioB.optimalLevelData ∧
      r1.levelData.length = scenarioB.levelData.length ∧
      (∀ (i : Nat) (l : stLevelInfo), scenarioB.levelData[i]? = some l →
        ∃ l1, r1.levelData[i]? = some l1 ∧ l1.NodeCount = l.NodeCount ∧
          l1.ObjectCount = l.ObjectCount ∧ l1.Intersections = l.Intersections) :=
  C10_calculate_frame scenarioB wellFormed_scenarioB

/-! ## Idempotence of Calculate -/

theorem localFatFactor_withLocalFatFactor (l : stLevelInfo) :
    localFatFactor (withLocalFatFactor l) = localFatFactor l := rfl

theorem withLocalFatFactor_idem (l : stLevelInfo) :
    withLocalFatFactor (withLocalFatFactor l) = withLocalFatFactor l := rfl

theorem map_withLocalFatFactor_idem (ld : List stLevelInfo) :
    (ld.map withLocalFatFactor).map withLocalFatFactor = ld.map withLocalFatFactor := by
  rw [List.map_map]
  apply List.map_congr_left
  intro l _
  rfl

theorem sum_intersections_withLocal (ld : List stLevelInfo) :
    ((ld.map withLocalFatFactor).map (·.Intersections)).sum = (ld.map (·.Intersections)).sum := by
  rw [List.map_map]
  rfl

theorem sum_nodeCount_withLocal (ld : List stLevelInfo) :
    ((ld.map withLocalFatFactor).map (·.NodeCount)).sum = (ld.map (·.NodeCount)).sum := by
  rw [List.map_map]
  rfl

/-- C11: on every well-formed report (so on every report that satisfies the
preconditions of Calculate) Calculate returns a report on which a second
Calculate returns the very same report: same FatFactor, BloatFactor, local
FatFactors, Ready and every other member. -/
theorem C11_calculate_idempotent (r : stTreeInformation) (hwf : WellFormed r) :
    ∃ r1, Calculate r = some r1 ∧ Calculate r1 = some r1 := by
  refine ⟨_, Calculate_eq r hwf, ?_⟩
  have hwf1 : WellFormed { r with
      levelData := r.levelData.map withLocalFatFactor
      fatFactor := fatFactorExpr (numIntersections r) r.height r.objectCount (numNodes r)
      bloatFactor := bloatFactorAfter r
      ready := true } := by
    refine ⟨?_, hwf.2⟩
    have := hwf.1
    unfold LevelsSized at this ⊢
    simpa using this
  rw [Calculate_eq _ hwf1]
  simp only [numIntersections, numNodes, totalIntersections, totalNodes,
    sum_intersections_withLocal, sum_nodeCount_withLocal, map_withLocalFatFactor_idem]
  congr 2
  unfold bloatFactorAfter
  cases h : r.optimalLevelData with
  | none => simp [h]
  | some O =>
    simp only [h, numIntersections, totalIntersections]
    rw [sum_intersections_withLocal]

/-- Witness of C11 on scenario B. -/
theorem C11_calculate_idempotent_witness :
    ∃ r1, Calculate scenarioB = some r1 ∧ Calculate r1 = some r1 :=
  C11_calculate_idempotent scenarioB wellFormed_scenarioB

/-! ## Claims on SetOptimalTreeInfo, ResetData and the constructor -/

/-- C12: for every height h >= 0 and arrays objectCounts and nodeCounts of
exactly h entries, SetOptimalTreeInfo returns a report with OptimalHeight = h
and a new optimal array of exactly h levels (whatever the previous one was),
level i holding NodeCount = nodeCounts[i] and ObjectCount = objectCounts[i],
with Ready = false and with Height, ObjectCount, MinHeight, the object-size
accumulators, the level array, FatFactor and BloatFactor unchanged. -/
theorem C12_setOptimalTreeInfo (junk : stOptimalLevelInfo) (height : Int)
    (oc nc : List Int) (r : stTreeInformation) (hh : 0 ≤ height)
    (ho : (oc.length : Int) = height) (hc : (nc.length : Int) = height) :
    ∃ r1 O, SetOptimalTreeInfo junk height oc nc r = some r1 ∧
      r1.optimalHeight = height ∧ r1.optimalLevelData = some O ∧
      (O.length : Int) = height ∧
      (∀ i : Nat, (i : Int) < height →
        ∃ a b, nc[i]? = some a ∧ oc[i]? = some b ∧ O[i]? = some ⟨a, b⟩) ∧
      r1.ready = false ∧
      r1.height = r.height ∧ r1.objectCount = r.objectCount ∧ r1.minHeight = r.minHeight ∧
      r1.objectSizeSum = r.objectSizeSum ∧ r1.objectSizeCount = r.objectSizeCount ∧
      r1.levelData = r.levelData ∧ r1.fatFactor = r.fatFactor ∧
      r1.bloatFactor = r.bloatFactor := by
  have ho' : oc.length = height.toNat := by omega
  have hc' : nc.length = height.toNat := by omega
  refine ⟨_, _, SetOptimalTreeInfo_eq junk height oc nc r hh (by omega) (by omega),
    rfl, rfl, ?_, ?_, rfl, rfl, rfl, rfl, rfl, rfl, rfl, rfl, rfl⟩
  · simp only [List.length_zipWith, List.length_take]
    omega
  · intro i hi
    have hio : i < oc.length := by omega
    have hic : i < nc.length := by omega
    have hgo : oc[i]? = some oc[i] := List.getElem?_eq_getElem hio
    have hgc : nc[i]? = some nc[i] := List.getElem?_eq_getElem hic
    refine ⟨nc[i], oc[i], hgc, hgo, ?_⟩
    rw [List.take_of_length_le (by omega), List.take_of_length_le (by omega),
      List.getElem?_zipWith, hgo, hgc]

/-- Witness of C12: a baseline of height 2 injected into scenario B. -/
theorem C12_setOptimalTreeInfo_witness :
    ∃ r1 O, SetOptimalTreeInfo ⟨0, 0⟩ 2 [7, 50] [1, 7] scenarioB = some r1 ∧
      r1.optimalHeight = 2 ∧ r1.optimalLevelData = some O ∧
      (O.length : Int) = 2 ∧
      (∀ i : Nat, (i : Int) < 2 →
        ∃ a b, ([1, 7] : List Int)[i]? = some a ∧ ([7, 50] : List Int)[i]? = some b ∧
          O[i]? = some ⟨a, b⟩) ∧
      r1.ready = false ∧
      r1.height = scenarioB.height ∧ r1.objectCount = scenarioB.objectCount ∧
      r1.minHeight = scenarioB.minHeight ∧
      r1.objectSizeSum = scenarioB.objectSizeSum ∧
      r1.objectSizeCount = scenarioB.objectSizeCount ∧
      r1.levelData = scenarioB.levelData ∧ r1.fatFactor = scenarioB.fatFactor ∧
      r1.bloatFactor = scenarioB.bloatFactor :=
  C12_setOptimalTreeInfo ⟨0, 0⟩ 2 [7, 50] [1, 7] scenarioB (by decide) (by decide) (by decide)

/-- C14: on every report whose level array has Height entries, ResetData
returns a report with the same number of levels, each with NodeCount = 0,
ObjectCount = 0, Intersections = 0 and local FatFactor = 0, with
ObjectSizeSum = 0 and ObjectSizeCount = 0, and with Height, ObjectCount,
MinHeight, OptimalHeight and the optimal array unchanged. -/
theorem C14_resetData (r : stTreeInformation) (hL : LevelsSized r) :
    ∃ r1, ResetData r = some r1 ∧
      r1.levelData.length = r.levelData.length ∧
      (∀ (i : Nat), (i : Int) < r.height →
        ∃ l, r1.levelData[i]? = some l ∧ l.NodeCount = 0 ∧ l.ObjectCount = 0 ∧
          l.Intersections = 0 ∧ l.FatFactor = Double.finite 0) ∧
      r1.objectSizeSum = 0 ∧ r1.objectSizeCount = 0 ∧
      r1.height = r.height ∧ r1.objectCount = r.objectCount ∧ r1.minHeight = r.minHeight ∧
      r1.optimalHeight = r.optimalHeight ∧ r1.optimalLevelData = r.optimalLevelData := by
  have hlen : r.height.toNat = r.levelData.length := by
    unfold LevelsSized at hL; omega
  refine ⟨_, ResetData_eq r hL, ?_, ?_, rfl, rfl, rfl, rfl, rfl, rfl, rfl⟩
  · simp [hlen]
  · intro i hi
    refine ⟨zeroLevel, ?_, rfl, rfl, rfl, rfl⟩
    show (List.replicate r.height.toNat zeroLevel)[i]? = some zeroLevel
    rw [List.getElem?_replicate, if_pos (by omega)]

/-- Witness of C14 on scenario B. -/
theorem C14_resetData_witness :
    ∃ r1, ResetData scenarioB = some r1 ∧
      r1.levelData.length = scenarioB.levelData.length ∧
      (∀ (i : Nat), (i : Int) < scenarioB.height →
        ∃ l, r1.levelData[i]? = some l ∧ l.NodeCount = 0 ∧ l.ObjectCount = 0 ∧
          l.Intersections = 0 ∧ l.FatFactor = Double.finite 0) ∧
      r1.objectSizeSum = 0 ∧ r1.objectSizeCount = 0 ∧
      r1.height = scenarioB.height ∧ r1.objectCount = scenarioB.objectCount ∧
      r1.minHeight = scenarioB.minHeight ∧
      r1.optimalHeight = scenarioB.optimalHeight ∧
      r1.optimalLevelData = scenarioB.optimalLevelData :=
  C14_resetData scenarioB (by decide)

/-- C15: for every height h >= 0 and objectCount n, whatever the base-class
constructor and the fresh array hold, the constructor returns a report with
Height = h, exactly h level records whose four fields are zero, MinHeight = h,
ObjectCount = n, zero object-size accumulators, no optimal array and
Ready = false. -/
theorem C15_construct (base : stTreeInformation) (junk : stLevelInfo) (height n : Int)
    (hh : 0 ≤ height) :
    ∃ r1, construct base junk height n = some r1 ∧
      r1.height = height ∧ (r1.levelData.length : Int) = height ∧
      (∀ l ∈ r1.levelData, l.NodeCount = 0 ∧ l.ObjectCount = 0 ∧
        l.Intersections = 0 ∧ l.FatFactor = Double.finite 0) ∧
      r1.minHeight = height ∧ r1.objectCount = n ∧
      r1.objectSizeSum = 0 ∧ r1.objectSizeCount = 0 ∧
      r1.optimalLevelData = none ∧ r1.ready = false := by
  refine ⟨_, construct_eq base junk height n hh, rfl, ?_, ?_, rfl, rfl, rfl, rfl, rfl, rfl⟩
  · simp [Int.toNat_of_nonneg hh]
  · intro l hl
    have : l = zeroLevel := List.eq_of_mem_replicate hl
    subst this
    exact ⟨rfl, rfl, rfl, rfl⟩

/-- Witness of C15: height 3 and 100 objects, from a base object that holds
other values and a fresh array that holds a non-zero record. -/
theorem C15_construct_witness :
    ∃ r1, construct scenarioC
        { NodeCount := 9, ObjectCount := 9, Intersections := 9, FatFactor := Double.nonFinite }
        3 100 = some r1 ∧
      r1.height = 3 ∧ (r1.levelData.length : Int) = 3 ∧
      (∀ l ∈ r1.levelData, l.NodeCount = 0 ∧ l.ObjectCount = 0 ∧
        l.Intersections = 0 ∧ l.FatFactor = Double.finite 0) ∧
      r1.minHeight = 3 ∧ r1.objectCount = 100 ∧
      r1.objectSizeSum = 0 ∧ r1.objectSizeCount = 0 ∧
      r1.optimalLevelData = none ∧ r1.ready = false :=
  C15_construct scenarioC
    { NodeCount := 9, ObjectCount := 9, Intersections := 9, FatFactor := Double.nonFinite }
    3 100 (by decide)

/-! ## Bound on the local FatFactor -/

/-- C16: on every well-formed report, for every level whose record l has
NodeCount >= 1, ObjectCount >= 1 and Intersections >= 0, the local FatFactor
that Calculate stores for that level is a finite value q with q <= 1, and
q = 1 exactly when Intersections = 0 and NodeCount = 1. -/
theorem C16_local_fatFactor_bound (r : stTreeInformation) (i : Nat) (l : stLevelInfo)
    (hwf : WellFormed r) (hl : r.levelData[i]? = some l)
    (hn : 1 ≤ l.NodeCount) (ho : 1 ≤ l.ObjectCount) (hx : 0 ≤ l.Intersections) :
    ∃ r1 q, Calculate r = some r1 ∧
      (r1.levelData[i]?).map (·.FatFactor) = some (Double.finite q) ∧
      q ≤ 1 ∧ (q = 1 ↔ l.Intersections = 0 ∧ l.NodeCount = 1) := by
  have hn' : (1 : ℚ) ≤ (l.NodeCount : ℚ) := by exact_mod_cast hn
  have ho' : (1 : ℚ) ≤ (l.ObjectCount : ℚ) := by exact_mod_cast ho
  have hx' : (0 : ℚ) ≤ (l.Intersections : ℚ) := by exact_mod_cast hx
  have hpos : (0 : ℚ) < (l.ObjectCount : ℚ) * (l.NodeCount : ℚ) := by positivity
  have hq : ((l.ObjectCount : ℚ) - (l.Intersections : ℚ)) / (l.ObjectCount : ℚ)
      / (l.NodeCount : ℚ)
      = ((l.ObjectCount : ℚ) - (l.Intersections : ℚ))
        / ((l.ObjectCount : ℚ) * (l.NodeCount : ℚ)) := by
    rw [div_div]
  refine ⟨_, ((l.ObjectCount : ℚ) - (l.Intersections : ℚ)) / (l.ObjectCount : ℚ)
      / (l.NodeCount : ℚ), Calculate_eq r hwf, ?_, ?_, ?_⟩
  · simp only [List.getElem?_map, hl, Option.map_some']
    have hr := l.inRange
    unfold IsInt32 at hr
    exact congrArg some (localFatFactor_finite l (by omega) (by omega)
      ⟨by omega, by omega⟩)
  · rw [hq, div_le_one hpos]
    nlinarith
  · rw [hq, div_eq_one_iff_eq (ne_of_gt hpos)]
    constructor
    · intro h
      have h1 : (l.Intersections : ℚ) = 0 := by nlinarith
      have h2 : (l.NodeCount : ℚ) = 1 := by
        rw [h1, sub_zero] at h
        have : (l.ObjectCount : ℚ) * ((l.NodeCount : ℚ) - 1) = 0 := by linarith
        rcases mul_eq_zero.1 this with h0 | h0
        · linarith
        · linarith
      exact ⟨by exact_mod_cast h1, by exact_mod_cast h2⟩
    · rintro ⟨h1, h2⟩
      rw [h1, h2]
      simp

/-- Witness of C16 on level 1 of scenario A. -/
theorem C16_local_fatFactor_bound_witness :
    ∃ r1 q, Calculate scenarioA = some r1 ∧
      (r1.levelData[1]?).map (·.FatFactor) = some (Double.finite q) ∧
      q ≤ 1 ∧ (q = 1 ↔ (10 : Int) = 0 ∧ (5 : Int) = 1) :=
  C16_local_fatFactor_bound scenarioA 1
    { NodeCount := 5, ObjectCount := 100, Intersections := 10, FatFactor := Double.finite 0 }
    wellFormed_scenarioA rfl (by decide) (by decide) (by decide)

/-! ## The BloatFactor and the documented original formula -/

/-- C17 (the code at the failing input): on scenario B (40 intersections, 100
objects, baseline of height 2 with 11 nodes) Calculate stores the BloatFactor
(40 - 300) / (100 * 11 - 3) = -260/1097, while the documented original formula
gives (40 - 300) / (100 * (11 - 3)) = -13/40. -/
theorem C17_bloatFactor_differs :
    totalIntersections scenarioB = 40 ∧ scenarioB.objectCount = 100 ∧
    scenarioB.optimalHeight = 2 ∧ scenarioB.optimalLevelData = some [⟨1, 10⟩, ⟨10, 100⟩] ∧
    optimalTotalNodes [⟨1, 10⟩, ⟨10, 100⟩] = 11 ∧
    originalBloatFactor 40 2 100 11 = Double.finite (-13 / 40) ∧
    ∃ r1, Calculate scenarioB = some r1 ∧
      r1.bloatFactor = Double.finite (-260 / 1097) ∧
      r1.bloatFactor ≠ originalBloatFactor 40 2 100 11 := by
  have horig : originalBloatFactor 40 2 100 11 = Double.finite (-13 / 40) := by
    unfold originalBloatFactor Double.ofInt
    simp only [Double.finite_sub, Double.finite_mul]
    rw [Double.finite_div_of_ne _ (by norm_num)]
    congr 1
    norm_num
  have hcode : bloatFactorAfter scenarioB = Double.finite (-260 / 1097) := by
    show bloatFactorExpr (numIntersections scenarioB) 2 100
      (optNumNodes [⟨1, 10⟩, ⟨10, 100⟩]) = _
    have h1 : numIntersections scenarioB = 40 := by decide
    have h2 : optNumNodes [⟨1, 10⟩, ⟨10, 100⟩] = 11 := by decide
    rw [h1, h2, bloatFactorExpr_finite _ _ _ _ (by decide) (by decide)]
    congr 1
    norm_num
  refine ⟨by decide, rfl, rfl, rfl, by decide, horig, _,
    Calculate_eq scenarioB wellFormed_scenarioB, hcode, ?_⟩
  show bloatFactorAfter scenarioB ≠ _
  rw [hcode, horig]
  intro h
  injection h with h
  norm_num at h

/-! ## CalculateOptimalTreeInfo on a single object -/

/-- C18 (the code at the failing input): with ObjectCount = 1 and occupation 2
(log(1) is 0 and log(2) is the double 0x1.62e42fefa39efp-1) the computed
OptimalHeight is 0, the array is allocated with 0 entries, the deepest-level
write goes to index 0 - 1, which is out of bounds, and
CalculateOptimalTreeInfo does not complete. -/
theorem C18_single_object_out_of_bounds :
    scenarioD.objectCount = 1 ∧ ceilLogxy libmLog 1 2 = some 0 ∧
    (∀ (junk v : stOptimalLevelInfo),
      writeAt (List.replicate (0 : Int).toNat junk) ((0 : Int) - 1) v = none) ∧
    (∀ junk : stOptimalLevelInfo,
      CalculateOptimalTreeInfo libmLog junk 2 scenarioD = none) := by
  have hlog : ceilLogxy libmLog 1 2 = some 0 := by
    rw [ceilLogxy_finite libmLog 1 2 0 (6243314768165359 / 9007199254740992) rfl rfl
      (by norm_num)]
    simp [Double.roundNearestEven_zero]
  refine ⟨rfl, hlog, ?_, ?_⟩
  · intro junk v
    simp [writeAt]
  · intro junk
    unfold CalculateOptimalTreeInfo
    have hc : scenarioD.objectCount = 1 := rfl
    rw [hc, hlog]
    simp [writeAt, ceilDiv_of_ne]

/-! ## Shape of the simulated optimal tree -/

theorem log_pred_le (n : Int) (hn : 2 ≤ n) :
    Real.log ((n : ℝ) - 1) ≤ Real.log (n : ℝ) - 1 / (n : ℝ) := by
  have hn2 : (2 : ℝ) ≤ (n : ℝ) := by exact_mod_cast hn
  have h0 : (0 : ℝ) < (n : ℝ) := by linarith
  have h1 : (0 : ℝ) < (n : ℝ) - 1 := by linarith
  have h := Real.log_le_sub_one_of_pos (div_pos h1 h0)
  rw [Real.log_div (ne_of_gt h1) (ne_of_gt h0)] at h
  have e : ((n : ℝ) - 1) / (n : ℝ) - 1 = -(1 / (n : ℝ)) := by field_simp
  rw [e] at h
  linarith

theorem log_lt_of_int32 (n : Int) (hn : 1 ≤ n) (hn31 : n < 2147483648) :
    Real.log (n : ℝ) < 22 := by
  have h0 : (0 : ℝ) < (n : ℝ) := by exact_mod_cast (by omega : (0 : Int) < n)
  have h1 : (n : ℝ) ≤ (2 : ℝ) ^ 31 := by
    have : (n : ℝ) < 2147483648 := by exact_mod_cast hn31
    norm_num
    linarith
  have h2 := Real.log_le_log h0 h1
  rw [Real.log_pow] at h2
  have h3 := Real.log_two_lt_d9
  norm_num at h2
  linarith

/-- If the two logarithms are accurate to delta and n * (31 * delta + 22 / 2^53)
is below 1, a height h with a * (1 - 2^-53) <= h * b has k^h >= n. -/
theorem le_pow_of_accurate (n k : Int) (h : Nat) (a b δ : ℚ)
    (hn : 2 ≤ n) (hn31 : n < 2147483648) (hk : 2 ≤ k)
    (hda : |(a : ℝ) - Real.log (n : ℝ)| ≤ (δ : ℝ))
    (hdb : |(b : ℝ) - Real.log (k : ℝ)| ≤ (δ : ℝ))
    (hδ : (n : ℚ) * (31 * δ + 22 / 2 ^ 53) < 1)
    (hh : a * (1 - 1 / 2 ^ 53) ≤ (h : ℚ) * b) : n ≤ k ^ h := by
  by_contra hlt
  push_neg at hlt
  have hlt1 : k ^ h ≤ n - 1 := Int.le_sub_one_of_lt hlt
  have hh30 : h ≤ 30 := by
    by_contra hc
    have h31 : 31 ≤ h := by omega
    have e1 : (2 : Int) ^ 31 ≤ 2 ^ h := pow_le_pow_right₀ (by norm_num) h31
    have e2 : (2 : Int) ^ h ≤ k ^ h := pow_le_pow_left₀ (by norm_num) hk h
    norm_num at e1
    linarith
  have hkpos : (0 : ℝ) < (k : ℝ) := by exact_mod_cast (by omega : (0 : Int) < k)
  have hkh : (0 : ℝ) < (k : ℝ) ^ h := pow_pos hkpos h
  have hle : (k : ℝ) ^ h ≤ (n : ℝ) - 1 := by exact_mod_cast hlt1
  have hlog1 : (h : ℝ) * Real.log (k : ℝ) ≤ Real.log ((n : ℝ) - 1) := by
    rw [← Real.log_pow]
    exact Real.log_le_log hkh hle
  have hlog2 := log_pred_le n hn
  have hA := log_lt_of_int32 n (by omega) hn31
  obtain ⟨ha1, _⟩ := abs_le.1 hda
  obtain ⟨_, hb2⟩ := abs_le.1 hdb
  have hδ0 : (0 : ℝ) ≤ (δ : ℝ) := le_trans (abs_nonneg _) hda
  have hhR : (a : ℝ) * (1 - 1 / 2 ^ 53) ≤ (h : ℝ) * (b : ℝ) := by
    have c : ((a * (1 - 1 / 2 ^ 53) : ℚ) : ℝ) ≤ (((h : ℚ) * b : ℚ) : ℝ) :=
      Rat.cast_le.2 hh
    push_cast at c
    exact c
  have hδR : (n : ℝ) * (31 * (δ : ℝ) + 22 / 2 ^ 53) < 1 := by
    have c : (((n : ℚ) * (31 * δ + 22 / 2 ^ 53) : ℚ) : ℝ) < ((1 : ℚ) : ℝ) :=
      Rat.cast_lt.2 hδ
    push_cast at c
    exact c
  have hh30R : (h : ℝ) ≤ 30 := by exact_mod_cast hh30
  have hh0R : (0 : ℝ) ≤ (h : ℝ) := Nat.cast_nonneg h
  have hn0 : (0 : ℝ) < (n : ℝ) := by exact_mod_cast (by omega : (0 : Int) < n)
  have s1 : (Real.log (n : ℝ) - (δ : ℝ)) * (1 - 1 / 2 ^ 53) ≤ (a : ℝ) * (1 - 1 / 2 ^ 53) :=
    mul_le_mul_of_nonneg_right (by linarith) (by norm_num)
  have s2 : (h : ℝ) * (b : ℝ) ≤ (h : ℝ) * (Real.log (k : ℝ) + (δ : ℝ)) :=
    mul_le_mul_of_nonneg_left (by linarith) hh0R
  have s3 : (h : ℝ) * (δ : ℝ) ≤ 30 * (δ : ℝ) := mul_le_mul_of_nonneg_right hh30R hδ0
  have key : 1 / (n : ℝ) ≤ 31 * (δ : ℝ) + 22 / 2 ^ 53 := by
    have s5 : (Real.log (n : ℝ) - (δ : ℝ)) * (1 - 1 / 2 ^ 53)
        = Real.log (n : ℝ) - Real.log (n : ℝ) / 2 ^ 53 - (δ : ℝ) + (δ : ℝ) / 2 ^ 53 := by
      ring
    have s6 : (h : ℝ) * (Real.log (k : ℝ) + (δ : ℝ))
        = (h : ℝ) * Real.log (k : ℝ) + (h : ℝ) * (δ : ℝ) := by ring
    have s7 : Real.log (n : ℝ) / 2 ^ 53 ≤ 22 / 2 ^ 53 :=
      div_le_div_of_nonneg_right (le_of_lt hA) (by norm_num)
    have s8 : (0 : ℝ) ≤ (δ : ℝ) / 2 ^ 53 := div_nonneg hδ0 (by norm_num)
    rw [s5] at s1
    rw [s6] at s2
    linarith
  have h1 : (1 : ℝ) ≤ (n : ℝ) * (31 * (δ : ℝ) + 22 / 2 ^ 53) := by
    calc (1 : ℝ) = (n : ℝ) * (1 / (n : ℝ)) := by field_simp
      _ ≤ (n : ℝ) * (31 * (δ : ℝ) + 22 / 2 ^ 53) :=
        mul_le_mul_of_nonneg_left key (le_of_lt hn0)
  linarith

theorem pos_of_accurate (n : Int) (a δ : ℚ) (hn : 2 ≤ n)
    (hda : |(a : ℝ) - Real.log (n : ℝ)| ≤ (δ : ℝ)) (hδ : δ < 1 / 2) : 0 < a := by
  obtain ⟨ha1, _⟩ := abs_le.1 hda
  have h2 : Real.log 2 ≤ Real.log (n : ℝ) :=
    Real.log_le_log (by norm_num) (by exact_mod_cast hn)
  have h3 := Real.log_two_gt_d9
  have hδR : (δ : ℝ) < 1 / 2 := by
    have c : (δ : ℝ) < ((1 / 2 : ℚ) : ℝ) := Rat.cast_lt.2 hδ
    push_cast at c
    exact c
  have : (0 : ℝ) < (a : ℝ) := by linarith
  exact_mod_cast this

/-! ## Claims on the shape of the simulated tree -/

/-- C19: for every ObjectCount n with 2 <= n < 2^31 and occupation k >= 2,
whenever the doubles a and b that the library log returns at n and at k are
within delta of the real logarithms, with n * (31 * delta + 22 / 2^53) < 1,
CalculateOptimalTreeInfo returns an optimal array of OptimalHeight levels
whose level 0 has NodeCount = 1, whose levels all have NodeCount >= 1, and
whose node counts never decrease with depth: NodeCount[i-1] <= NodeCount[i]
for every 1 <= i < OptimalHeight. -/
theorem C19_single_root (log : Int → Double) (junk : stOptimalLevelInfo) (k : Int)
    (r : stTreeInformation) (a b δ : ℚ)
    (hn : 2 ≤ r.objectCount) (hn31 : r.objectCount < 2147483648) (hk : 2 ≤ k)
    (ha : log r.objectCount = Double.finite a) (hb : log k = Double.finite b)
    (hda : |(a : ℝ) - Real.log (r.objectCount : ℝ)| ≤ (δ : ℝ))
    (hdb : |(b : ℝ) - Real.log (k : ℝ)| ≤ (δ : ℝ))
    (hδ : (r.objectCount : ℚ) * (31 * δ + 22 / 2 ^ 53) < 1) :
    ∃ r1 O, CalculateOptimalTreeInfo log junk k r = some r1 ∧
      r1.optimalLevelData = some O ∧ (O.length : Int) = r1.optimalHeight ∧
      (∃ l0, O[0]? = some l0 ∧ l0.NodeCount = 1) ∧
      (∀ l ∈ O, 1 ≤ l.NodeCount) ∧
      (∀ i : Nat, 1 ≤ i → (i : Int) < r1.optimalHeight →
        ∃ a b, O[i - 1]? = some a ∧ O[i]? = some b ∧ a.NodeCount ≤ b.NodeCount) := by
  have hk0 : (0 : Int) < k := by omega
  have hδ0 : 0 ≤ δ := by
    have : (0 : ℝ) ≤ (δ : ℝ) := le_trans (abs_nonneg _) hda
    exact_mod_cast this
  have hδ1 : δ < 1 / 2 := by
    have hn2 : (2 : ℚ) ≤ (r.objectCount : ℚ) := by exact_mod_cast hn
    nlinarith
  have ha0 : 0 < a := pos_of_accurate r.objectCount a δ hn hda hδ1
  have hb0 : 0 < b := pos_of_accurate k b δ hk hdb hδ1
  obtain ⟨h, hpos, hval, _, hr1⟩ :=
    CalculateOptimalTreeInfo_of_pos log junk k r a b (by omega) ha hb ha0 hb0
  have hq : 0 < a / b := div_pos ha0 hb0
  have hh : a * (1 - 1 / 2 ^ 53) ≤ (h : ℚ) * b := by
    have e1 := Double.roundPos_rel (a / b) hq
    rw [← Double.roundNearestEven_of_pos _ hq] at e1
    have e2 := Int.le_ceil (Double.roundNearestEven (a / b))
    rw [← hval] at e2
    have e3 : a / b * (1 - 1 / 2 ^ 53) ≤ (h : ℚ) := by
      have : (((h : Nat) : Int) : ℚ) = (h : ℚ) := by norm_cast
      rw [← this]
      exact le_trans e1 e2
    have e4 := mul_le_mul_of_nonneg_right e3 (le_of_lt hb0)
    have e5 : a / b * (1 - 1 / 2 ^ 53) * b = a * (1 - 1 / 2 ^ 53) := by
      field_simp
      ring
    rw [e5] at e4
    exact e4
  have hcover : r.objectCount ≤ k ^ h :=
    le_pow_of_accurate r.objectCount k h a b δ hn hn31 hk hda hdb hδ hh
  refine ⟨_, _, hr1, rfl, ?_, ?_, ?_, ?_⟩
  · rw [optimalChain_length]; rfl
  · refine ⟨_, optimalChain_getElem? k _ _ 0 (by omega), ?_⟩
    show (ceilStep k)^[_] _ = 1
    rw [Nat.sub_zero]
    exact le_antisymm
      (iterate_ceilStep_le_one k hk0 _ _ hcover)
      (iterate_ceilStep_pos k hk0 _ _ (by omega))
  · exact optimalChain_nodeCount_pos k hk0 _ _ (by omega)
  · intro i hi1 hi2
    have hi : i < h := by
      have : ((i : Nat) : Int) < ((h : Nat) : Int) := hi2
      omega
    refine ⟨_, _, optimalChain_getElem? k _ _ (i - 1) (by omega),
      optimalChain_getElem? k _ _ i hi, ?_⟩
    show (ceilStep k)^[_] _ ≤ (ceilStep k)^[_] _
    have e : h - (i - 1) = (h - i) + 1 := by omega
    rw [e, Function.iterate_succ_apply']
    exact ceilStep_le_self k _ hk0
      (le_trans (by decide) (iterate_ceilStep_pos k hk0 _ _ (by omega)))

theorem libmLog_two_accurate :
    |((6243314768165359 / 9007199254740992 : ℚ) : ℝ) - Real.log ((2 : Int) : ℝ)|
      ≤ ((1 / 10 ^ 9 : ℚ) : ℝ) := by
  obtain ⟨h1, h2⟩ := abs_le.1 Real.log_two_near_10
  rw [abs_le]
  push_cast
  constructor
  · norm_num at h1 h2 ⊢
    linarith
  · norm_num at h1 h2 ⊢
    linarith

theorem libmLog_four_accurate :
    |((6243314768165359 / 4503599627370496 : ℚ) : ℝ) - Real.log ((4 : Int) : ℝ)|
      ≤ ((1 / 10 ^ 9 : ℚ) : ℝ) := by
  obtain ⟨h1, h2⟩ := abs_le.1 Real.log_two_near_10
  have e : Real.log ((4 : Int) : ℝ) = 2 * Real.log 2 := by
    have : (((4 : Int) : ℝ)) = (2 : ℝ) ^ 2 := by norm_num
    rw [this, Real.log_pow]
    norm_num
  rw [e, abs_le]
  push_cast
  constructor
  · norm_num at h1 h2 ⊢
    linarith
  · norm_num at h1 h2 ⊢
    linarith

/-- Witness of C19: 4 objects at occupation 2, with the doubles that the C
library returns for log(4) and log(2), which are within 10^-9 of the real
logarithms. -/
theorem C19_single_root_witness :
    ∃ r1 O, CalculateOptimalTreeInfo libmLog ⟨0, 0⟩ 2 scenarioA4 = some r1 ∧
      r1.optimalLevelData = some O ∧ (O.length : Int) = r1.optimalHeight ∧
      (∃ l0, O[0]? = some l0 ∧ l0.NodeCount = 1) ∧
      (∀ l ∈ O, 1 ≤ l.NodeCount) ∧
      (∀ i : Nat, 1 ≤ i → (i : Int) < r1.optimalHeight →
        ∃ a b, O[i - 1]? = some a ∧ O[i]? = some b ∧ a.NodeCount ≤ b.NodeCount) :=
  C19_single_root libmLog ⟨0, 0⟩ 2 scenarioA4 (6243314768165359 / 4503599627370496)
    (6243314768165359 / 9007199254740992) (1 / 10 ^ 9) (by decide) (by decide) (by decide)
    rfl rfl libmLog_four_accurate libmLog_two_accurate
    (by
      have e : scenarioA4.objectCount = 4 := rfl
      rw [e]
      norm_num)

/-- C20: for every ObjectCount n >= 3 and occupation k >= 2, whenever the
library log, on the ints 1 .. N that hold k and n, is finite, 0 at 1,
non-decreasing and positive from 2 on, CalculateOptimalTreeInfo returns a
baseline for which the BloatFactor divisor of Calculate,
n * optimalTotalNodes - (OptimalHeight + 1), is strictly positive; so on a
report whose level array has Height entries, when the node total of the
baseline and OptimalHeight + 1 are inside the range of a 32-bit int, the int
optNumNodes holds that node total and the following Calculate returns and
stores a finite BloatFactor. -/
theorem C20_bloat_divisor_positive (log : Int → Double) (N : Int)
    (junk : stOptimalLevelInfo) (k : Int) (r : stTreeInformation) (hlog : IsLog log N)
    (hn : 3 ≤ r.objectCount) (hnN : r.objectCount ≤ N) (hk : 2 ≤ k) (hkN : k ≤ N) :
    ∃ r1 O, CalculateOptimalTreeInfo log junk k r = some r1 ∧
      r1.optimalLevelData = some O ∧ (O.length : Int) = r1.optimalHeight ∧
      0 < r1.objectCount * optimalTotalNodes O - (r1.optimalHeight + 1) ∧
      (LevelsSized r → IsInt32 (optimalTotalNodes O) → IsInt32 (r1.optimalHeight + 1) →
        0 < r1.objectCount * optNumNodes O - wrap32 (r1.optimalHeight + 1) ∧
        ∃ r2, Calculate r1 = some r2 ∧ r2.bloatFactor.isFinite = true) := by
  have hk0 : (0 : Int) < k := by omega
  obtain ⟨h, hpos, _, hr1⟩ :=
    CalculateOptimalTreeInfo_of_isLog log N hlog junk k r hk hkN (by omega) hnN
  have hsum := length_le_optimalTotalNodes _
    (optimalChain_nodeCount_pos k hk0 h r.objectCount (by omega))
  rw [optimalChain_length] at hsum
  have hdiv : 0 < r.objectCount * optimalTotalNodes (optimalChain k h r.objectCount)
      - (((h : Nat) : Int) + 1) := by
    have h1 : (1 : Int) ≤ ((h : Nat) : Int) := by exact_mod_cast hpos
    nlinarith
  refine ⟨_, _, hr1, rfl, ?_, hdiv, ?_⟩
  · rw [optimalChain_length]; rfl
  · intro hL hT hH
    have hwf : WellFormed (Invalidate { r with
        optimalHeight := (h : Int)
        optimalLevelData := some (optimalChain k h r.objectCount) }) := by
      refine ⟨hL, ?_⟩
      intro O hO
      cases hO
      rw [optimalChain_length]
      rfl
    have hdiv1 : 0 < r.objectCount * optNumNodes (optimalChain k h r.objectCount)
        - wrap32 (((h : Nat) : Int) + 1) := by
      have hH1 : IsInt32 (((h : Nat) : Int) + 1) := hH
      unfold optNumNodes
      rw [wrap32_of_isInt32 _ hT, wrap32_of_isInt32 _ hH1]
      exact hdiv
    refine ⟨hdiv1, _, Calculate_eq _ hwf, ?_⟩
    show (bloatFactorExpr _ _ _ _).isFinite = true
    rw [bloatFactorExpr_isFinite]
    exact ne_of_gt hdiv1

/-- Witness of C20: 4 objects at occupation 2, with the doubles that the C
library returns for the logarithms of 1 to 4. -/
theorem C20_bloat_divisor_positive_witness :
    ∃ r1 O, CalculateOptimalTreeInfo libmLog ⟨0, 0⟩ 2 scenarioA4 = some r1 ∧
      r1.optimalLevelData = some O ∧ (O.length : Int) = r1.optimalHeight ∧
      0 < r1.objectCount * optimalTotalNodes O - (r1.optimalHeight + 1) ∧
      (LevelsSized scenarioA4 → IsInt32 (optimalTotalNodes O) →
        IsInt32 (r1.optimalHeight + 1) →
        0 < r1.objectCount * optNumNodes O - wrap32 (r1.optimalHeight + 1) ∧
        ∃ r2, Calculate r1 = some r2 ∧ r2.bloatFactor.isFinite = true) :=
  C20_bloat_divisor_positive libmLog 4 ⟨0, 0⟩ 2 scenarioA4 isLog_libmLog (by decide)
    (by decide) (by decide) (by decide)

/-! ## Clone -/

theorem Clone_eq (base : stTreeInformation) (junk : stLevelInfo) (r : stTreeInformation)
    (hwf : WellFormed r) : Clone base junk r = some r := by
  obtain ⟨hL, hO⟩ := hwf
  unfold LevelsSized at hL
  have hh : 0 ≤ r.height := by omega
  have hlen : r.height.toNat = r.levelData.length := by omega
  unfold Clone
  rw [construct_eq base junk r.height r.objectCount hh]
  simp only [Option.some_bind]
  rw [if_neg (by omega)]
  have hld : List.take r.height.toNat r.levelData
      ++ List.drop r.height.toNat (List.replicate r.height.toNat zeroLevel) = r.levelData := by
    rw [hlen, List.take_length]
    simp
  cases hopt : r.optimalLevelData with
  | none =>
    simp only [hld]
    cases r
    simp_all
  | some O =>
    have hOl := hO O hopt
    have hOlen : r.optimalHeight.toNat = O.length := by omega
    simp only [hld]
    rw [if_neg (by omega), hOlen, List.take_length]
    cases r
    simp_all

theorem getElem?_append_of_some {α : Type} (l l' : List α) (i : Nat) (x : α)
    (h : l[i]? = some x) : (l ++ l')[i]? = some x := by
  have hlt : i < l.length := by
    by_contra hge
    rw [List.getElem?_eq_none (Nat.le_of_not_lt hge)] at h
    cases h
  rw [List.getElem?_append_left hlt]
  exact h

theorem lt_length_of_getElem? {α : Type} (l : List α) (i : Nat) (x : α)
    (h : l[i]? = some x) : i < l.length := by
  by_contra hge
  rw [List.getElem?_eq_none (Nat.le_of_not_lt hge)] at h
  cases h

theorem Memory.load_levelPtr (m : Memory) (o : Object) (r : stTreeInformation)
    (h : m.load o = some r) : o.levelData < m.levelArrays.length := by
  unfold Memory.load at h
  simp only [Option.bind_eq_some] at h
  obtain ⟨ld, hld, _⟩ := h
  exact lt_length_of_getElem? _ _ _ hld

theorem Memory.load_grow (m : Memory) (o : Object) (r : stTreeInformation)
    (A : List (List stLevelInfo)) (B : List (List stOptimalLevelInfo))
    (h : m.load o = some r) :
    Memory.load { levelArrays := m.levelArrays ++ A, optimalArrays := m.optimalArrays ++ B } o
      = some r := by
  unfold Memory.load at h ⊢
  simp only [Option.bind_eq_some] at h
  obtain ⟨ld, hld, h⟩ := h
  simp only [getElem?_append_of_some _ A _ _ hld, Option.some_bind]
  cases hp : o.optimalLevelData with
  | none => rw [hp] at h; exact h
  | some p =>
    rw [hp] at h
    simp only [Option.map_eq_some'] at h ⊢
    obtain ⟨O, hO, h⟩ := h
    exact ⟨O, getElem?_append_of_some _ B _ _ hO, h⟩

theorem Memory.inPlace_other (f : stTreeInformation → Option stTreeInformation)
    (m m2 : Memory) (o o2 other : Object) (r : stTreeInformation)
    (hne : o.levelData ≠ other.levelData) (hl : m.load other = some r)
    (h : m.inPlace f o = some (m2, o2)) : m2.load other = some r := by
  unfold Memory.inPlace at h
  simp only [Option.bind_eq_some, Option.map_eq_some', Prod.mk.injEq] at h
  obtain ⟨_, _, r1, _, hm, _⟩ := h
  subst hm
  unfold Memory.load at hl ⊢
  simp only [List.getElem?_set_ne hne]
  exact hl

theorem Memory.inPlace_self (f : stTreeInformation → Option stTreeInformation)
    (m : Memory) (o : Object) (r r1 : stTreeInformation)
    (hl : m.load o = some r) (hf : f r = some r1)
    (hopt : r1.optimalLevelData = r.optimalLevelData) :
    ∃ m2 o2, m.inPlace f o = some (m2, o2) ∧ m2.load o2 = some r1 ∧
      o2.levelData = o.levelData := by
  have hlt := Memory.load_levelPtr m o r hl
  refine ⟨{ m with levelArrays := m.levelArrays.set o.levelData r1.levelData },
    { o with scalars := r1 }, ?_, ?_, rfl⟩
  · unfold Memory.inPlace
    rw [hl]
    simp only [Option.some_bind, hf, Option.map_some']
  · unfold Memory.load at hl ⊢
    simp only [Option.bind_eq_some] at hl
    obtain ⟨ld, _, hl⟩ := hl
    simp only [List.getElem?_set_self hlt, Option.some_bind]
    cases hp : o.optimalLevelData with
    | none =>
      rw [hp] at hl
      simp only [Option.some.injEq] at hl
      subst hl
      simp only [Option.some.injEq]
      cases r1
      simp_all
    | some p =>
      rw [hp] at hl
      simp only [Option.map_eq_some'] at hl ⊢
      obtain ⟨O, hO, hl⟩ := hl
      subst hl
      refine ⟨O, hO, ?_⟩
      cases r1
      simp_all

theorem Memory.clone_spec (base : stTreeInformation) (junk : stLevelInfo)
    (m : Memory) (o : Object) (r : stTreeInformation)
    (hl : m.load o = some r) (hwf : WellFormed r) :
    ∃ m1 c, m.clone base junk o = some (m1, c) ∧ m1.load c = some r ∧
      m1.load o = some r ∧ o.levelData ≠ c.levelData := by
  have hlt := Memory.load_levelPtr m o r hl
  unfold Memory.clone
  rw [hl]
  simp only [Option.some_bind, Clone_eq base junk r hwf, Option.map_some']
  cases hopt : r.optimalLevelData with
  | none =>
    refine ⟨_, _, rfl, ?_, ?_, ?_⟩
    · unfold Memory.load
      simp only [List.getElem?_concat_length, Option.some_bind, Option.some.injEq]
      cases r
      simp_all
    · have := Memory.load_grow m o r [r.levelData] [] hl
      simpa using this
    · exact Nat.ne_of_lt hlt
  | some O =>
    refine ⟨_, _, rfl, ?_, ?_, ?_⟩
    · unfold Memory.load
      simp only [List.getElem?_concat_length, Option.some_bind, Option.map_some',
        Option.some.injEq]
      cases r
      simp_all
    · exact Memory.load_grow m o r [r.levelData] [O] hl
    · exact Nat.ne_of_lt hlt

theorem Memory.inPlace_both (f : stTreeInformation → Option stTreeInformation)
    (m : Memory) (o other : Object) (r r1 ro : stTreeInformation)
    (hl : m.load o = some r) (hf : f r = some r1)
    (hopt : r1.optimalLevelData = r.optimalLevelData)
    (hne : o.levelData ≠ other.levelData) (hlo : m.load other = some ro) :
    ∃ m2 o2 r2, f r = some r2 ∧ m.inPlace f o = some (m2, o2) ∧ m2.load o2 = some r2 ∧
      m2.load other = some ro := by
  obtain ⟨m2, o2, hrun, hload, _⟩ := Memory.inPlace_self f m o r r1 hl hf hopt
  exact ⟨m2, o2, r1, hf, hrun, hload, Memory.inPlace_other f m m2 o o2 other ro hne hlo hrun⟩

/-- C13: for every well-formed report r (with or without an optimal baseline)
held by an object in memory, Clone returns an object whose value equals r in
every member and in every entry of both arrays (Height, ObjectCount,
MinHeight, FatFactor, BloatFactor, the object-size accumulators, Ready, the
levels, OptimalHeight and the optimal levels); the original still has the
value r; and ResetData or Calculate run afterwards on the original leaves the
value of the clone unchanged, and run on the clone leaves the value of the
original unchanged. -/
theorem C13_clone_fidelity (base : stTreeInformation) (junk : stLevelInfo)
    (m : Memory) (o : Object) (r : stTreeInformation)
    (hl : m.load o = some r) (hwf : WellFormed r) :
    Clone base junk r = some r ∧
    ∃ m1 c, m.clone base junk o = some (m1, c) ∧ m1.load c = some r ∧ m1.load o = some r ∧
      (∃ m2 o2 r2, ResetData r = some r2 ∧ m1.inPlace ResetData o = some (m2, o2) ∧
        m2.load o2 = some r2 ∧ m2.load c = some r) ∧
      (∃ m2 o2 r2, Calculate r = some r2 ∧ m1.inPlace Calculate o = some (m2, o2) ∧
        m2.load o2 = some r2 ∧ m2.load c = some r) ∧
      (∃ m2 c2 r2, ResetData r = some r2 ∧ m1.inPlace ResetData c = some (m2, c2) ∧
        m2.load c2 = some r2 ∧ m2.load o = some r) ∧
      (∃ m2 c2 r2, Calculate r = some r2 ∧ m1.inPlace Calculate c = some (m2, c2) ∧
        m2.load c2 = some r2 ∧ m2.load o = some r) := by
  refine ⟨Clone_eq base junk r hwf, ?_⟩
  obtain ⟨m1, c, hclone, hlc, hlo, hne⟩ := Memory.clone_spec base junk m o r hl hwf
  refine ⟨m1, c, hclone, hlc, hlo, ?_, ?_, ?_, ?_⟩
  · exact Memory.inPlace_both ResetData m1 o c r _ r hlo (ResetData_eq r hwf.1) rfl hne hlc
  · exact Memory.inPlace_both Calculate m1 o c r _ r hlo (Calculate_eq r hwf) rfl hne hlc
  · exact Memory.inPlace_both ResetData m1 c o r _ r hlc (ResetData_eq r hwf.1) rfl
      (Ne.symm hne) hlo
  · exact Memory.inPlace_both Calculate m1 c o r _ r hlc (Calculate_eq r hwf) rfl
      (Ne.symm hne) hlo

/-- Witness of C13: the object of scenario B (with an optimal baseline). -/
theorem C13_clone_fidelity_witness :
    Clone scenarioC zeroLevel scenarioB = some scenarioB ∧
    ∃ m1 c, memoryB.clone scenarioC zeroLevel objectB = some (m1, c) ∧
      m1.load c = some scenarioB ∧ m1.load objectB = some scenarioB ∧
      (∃ m2 o2 r2, ResetData scenarioB = some r2 ∧
        m1.inPlace ResetData objectB = some (m2, o2) ∧
        m2.load o2 = some r2 ∧ m2.load c = some scenarioB) ∧
      (∃ m2 o2 r2, Calculate scenarioB = some r2 ∧
        m1.inPlace Calculate objectB = some (m2, o2) ∧
        m2.load o2 = some r2 ∧ m2.load c = some scenarioB) ∧
      (∃ m2 c2 r2, ResetData scenarioB = some r2 ∧
        m1.inPlace ResetData c = some (m2, c2) ∧
        m2.load c2 = some r2 ∧ m2.load objectB = some scenarioB) ∧
      (∃ m2 c2 r2, Calculate scenarioB = some r2 ∧
        m1.inPlace Calculate c = some (m2, c2) ∧
        m2.load c2 = some r2 ∧ m2.load objectB = some scenarioB) :=
  C13_clone_fidelity scenarioC zeroLevel memoryB objectB scenarioB rfl wellFormed_scenarioB

end Arboretum
